import Mathlib

/-!
# s_gen: randomized-view sample generator

A shallow embedding of `src/s_gen.cpp`.

Conventions of the embedding:

* A value of the C++ type `float` is an IEEE 754 binary32 value: a finite
  number (carried as an exact rational), an infinity or a NaN. Every float
  operation of the program rounds its exact result to the nearest binary32
  value, ties to even, and overflows to an infinity. The sign of zero is not
  recorded.
* `std::string` is a list of characters.
* `main` is a function of a `World` record holding every answer the external
  collaborators (option parser, mesh importer, GLFW, GLEW, OpenGL, stb_image,
  the file system, the random device, the C library's float formatter) give
  during a run. It returns the exit status together with the ordered trace
  of observable effects (diagnostic lines, resource creation calls,
  directory creation, PNG encoder calls).
* GLM matrices are `Matrix (Fin 4) (Fin 4) K` in the usual row/column
  convention; a GLM element `m[c][r]` (column `c`, row `r`) is entry `r c`.
-/

namespace SGen

/-! ## Floats -/

/-- Rounding of a non-negative value to the nearest integer, ties to the
even one. -/
def round_half_even (x : ℚ) : Nat :=
  let m : Nat := (⌊x⌋).toNat
  let r : ℚ := x - m
  if r > 1 / 2 ∨ (r = 1 / 2 ∧ m % 2 = 1) then m + 1 else m

/-- The binary32 exponent of a non-negative value `x`: the integer `e` with
`2^e ≤ x < 2^(e+1)`, and `-126`, the exponent of the subnormal numbers, when
that is larger or `x` is zero. -/
def binade (x : ℚ) : ℤ := if 0 < x then max (Int.log 2 x) (-126) else -126

/-- The distance between neighbouring binary32 values at a non-negative
value `x`: with 24 significant bits, `2^(e - 23)` for the exponent `e` of
`x`. -/
def ulp (x : ℚ) : ℚ := (2 : ℚ) ^ (binade x - 23)

/-- Rounding of a non-negative value to the nearest multiple of its `ulp`,
ties to the even multiple. -/
def round_magnitude (x : ℚ) : ℚ := (round_half_even (x / ulp x) : ℚ) * ulp x

/-- Rounding of an exact value to the nearest binary32 value of unbounded
exponent, ties to even: the sign and the rounded magnitude. -/
def round_to_float32 (q : ℚ) : ℚ :=
  if q < 0 then -round_magnitude (-q) else round_magnitude q

/-- A number that a `float` variable can hold: rounding leaves it as it is,
and its magnitude is below `2^128`, where binary32 overflows. -/
def is_float32 (x : ℚ) : Prop := round_to_float32 x = x ∧ |x| < (2 : ℚ) ^ (128 : ℤ)

/-- A value of the C++ type `float`. -/
inductive float
  | finite (q : ℚ)
  | inf (negative : Bool)
  | nan
deriving DecidableEq

/-- The `float` result of an operation whose exact result is `q`: `q`
rounded, or the infinity of its sign when the rounded magnitude reaches
`2^128`. -/
def float.round (q : ℚ) : float :=
  if (2 : ℚ) ^ (128 : ℤ) ≤ |round_to_float32 q| then float.inf (decide (q < 0))
  else float.finite (round_to_float32 q)

/-- Unary minus on `float`. -/
def float.neg : float → float
  | float.finite x => float.finite (-x)
  | float.inf s => float.inf (!s)
  | float.nan => float.nan

/-- The operator `+` on `float`. -/
def float.add : float → float → float
  | float.finite x, float.finite y => float.round (x + y)
  | float.finite _, float.inf s => float.inf s
  | float.inf s, float.finite _ => float.inf s
  | float.inf s, float.inf t => if s = t then float.inf s else float.nan
  | float.nan, _ => float.nan
  | _, float.nan => float.nan

/-- The operator `-` on `float`. -/
def float.sub (a b : float) : float := float.add a (float.neg b)

/-- The operator `*` on `float`. -/
def float.mul : float → float → float
  | float.finite x, float.finite y => float.round (x * y)
  | float.finite x, float.inf s =>
    if x = 0 then float.nan else float.inf (xor s (decide (x < 0)))
  | float.inf s, float.finite y =>
    if y = 0 then float.nan else float.inf (xor s (decide (y < 0)))
  | float.inf s, float.inf t => float.inf (xor s t)
  | float.nan, _ => float.nan
  | _, float.nan => float.nan

/-- The operator `<` on `float`; every comparison with a NaN is false. -/
def float.lt : float → float → Bool
  | float.finite x, float.finite y => decide (x < y)
  | float.finite _, float.inf s => !s
  | float.inf s, float.finite _ => s
  | float.inf s, float.inf t => s && !t
  | float.nan, _ => false
  | _, float.nan => false

/-- The function `floor` on `float`; the floor of a binary32 value is a
binary32 value. -/
def float.floor : float → float
  | float.finite x => float.finite (⌊x⌋ : ℚ)
  | float.inf s => float.inf s
  | float.nan => float.nan

/-- The function `glm::fract(x)`, which GLM computes as `x - floor(x)`. -/
def fract (x : float) : float := float.sub x (float.floor x)

/-- The `float` constant by which `glm::radians` multiplies its argument:
the binary32 value of the literal `0.01745329251994329576923690768489`. -/
def glm_radians_factor : ℚ := 9370165 / 536870912

/-- The function `glm::radians(degrees)`. -/
def glm_radians (degrees : float) : float :=
  float.mul degrees (float.finite glm_radians_factor)

/-- The auto-swap of `main` (lines 150-151 and 158-159):
`if (min > max) std::swap(min, max);`. The pair returned is `(min, max)`
after the statement. -/
def auto_swap (min max : float) : float × float :=
  if float.lt max min then (max, min) else (min, max)

/-- One draw from `std::uniform_real_distribution<float>(a, b)`: the
distribution scales the canonical draw `u` taken from `[0, 1)` by `b - a`
and shifts it by `a`, computing `u * (b - a) + a` in `float`. -/
def uniform_real_distribution (a b u : float) : float :=
  float.add (float.mul u (float.sub b a)) a

/-! ## Mesh import -/

/-- The type `aiVector3D`. -/
structure aiVector3D where
  x : float
  y : float
  z : float
deriving DecidableEq

/-- The type `aiMatrix4x4`, row-major members `a1 .. d4`. -/
structure aiMatrix4x4 where
  a1 : float
  a2 : float
  a3 : float
  a4 : float
  b1 : float
  b2 : float
  b3 : float
  b4 : float
  c1 : float
  c2 : float
  c3 : float
  c4 : float
  d1 : float
  d2 : float
  d3 : float
  d4 : float
deriving DecidableEq

/-- Assimp's `aiMatrix4x4 * aiVector3D`: the affine action of the matrix on
a point, each row evaluated from left to right. -/
def aiMatrix4x4.mulVec (m : aiMatrix4x4) (v : aiVector3D) : aiVector3D :=
  { x := float.add (float.add (float.add (float.mul m.a1 v.x) (float.mul m.a2 v.y))
      (float.mul m.a3 v.z)) m.a4
    y := float.add (float.add (float.add (float.mul m.b1 v.x) (float.mul m.b2 v.y))
      (float.mul m.b3 v.z)) m.b4
    z := float.add (float.add (float.add (float.mul m.c1 v.x) (float.mul m.c2 v.y))
      (float.mul m.c3 v.z)) m.c4 }

/-- The operator `aiVector3D::operator[]` for the component indices 0, 1, 2. -/
def aiVector3D.component (v : aiVector3D) (j : Nat) : float :=
  match j with
  | 0 => v.x
  | 1 => v.y
  | _ => v.z

/-- The part of an `aiMaterial` that `load_mesh` reads: the paths of its
textures of type `aiTextureType_DIFFUSE`, in slot order. -/
structure aiMaterial where
  diffuse : List (List Char)
deriving DecidableEq

/-- The part of an `aiMesh` that `load_mesh` reads. `mTextureCoords0` is
`mTextureCoords[0]` (`none` for a null pointer); `material` is
`scene->mMaterials[mesh->mMaterialIndex]`. -/
structure aiMesh where
  mVertices : List aiVector3D
  mTextureCoords0 : Option (List aiVector3D)
  material : aiMaterial
deriving DecidableEq

/-- The part of an `aiScene` that `load_mesh` reads. `mRootNode` holds the
root node's `mTransformation` (`none` for a null root). -/
structure aiScene where
  incomplete : Bool
  mRootNode : Option aiMatrix4x4
  mMeshes : List aiMesh
deriving DecidableEq

/-- The type `glm::vec3`. -/
structure vec3 where
  x : float
  y : float
  z : float
deriving DecidableEq

/-- The type `glm::vec2`. -/
structure vec2 where
  x : float
  y : float
deriving DecidableEq

/-- The type `struct Vertex` (lines 23-27). -/
structure Vertex where
  pos : vec3
  uv : vec2
deriving DecidableEq

/-- The test `aiMesh::HasTextureCoords(0)`: channel 0 is present and the mesh has
vertices. -/
def aiMesh.HasTextureCoords0 (mesh : aiMesh) : Bool :=
  mesh.mTextureCoords0.isSome && decide (0 < mesh.mVertices.length)

/-- The value `mesh->mTextureCoords[0][i][j]`. Reached only when channel 0 is
present; Assimp stores as many coordinates there as the mesh has vertices. -/
def aiMesh.texCoord (mesh : aiMesh) (i j : Nat) : float :=
  match mesh.mTextureCoords0 with
  | some tc =>
    (tc[i]?.getD ⟨float.finite 0, float.finite 0, float.finite 0⟩).component j
  | none => float.finite 0

/-- One component of the UV stored by the vertex loop (line 65). -/
def load_uv (mesh : aiMesh) (i j : Nat) : float :=
  if mesh.HasTextureCoords0 then fract (mesh.texCoord i j) else float.finite 0

/-- One pass of the vertex loop body (lines 61-65) for vertex `i` holding
the raw position `p`. -/
def load_vertex (transform : aiMatrix4x4) (mesh : aiMesh) (i : Nat) (p : aiVector3D) : Vertex :=
  let v := transform.mulVec p
  { pos := ⟨v.component 0, v.component 1, v.component 2⟩
    uv := ⟨load_uv mesh i 0, load_uv mesh i 1⟩ }

/-- What `load_mesh` hands back: the returned vertex vector, the value of
the `diffuse_texture` reference parameter on return, and the lines it
printed. -/
structure LoadResult where
  vertices : List Vertex
  diffuse_texture : List Char
  out : List String
deriving DecidableEq

/-- The function `load_mesh` (lines 29-79). `scene` is what `importer.ReadFile` returned
(`none` for a null pointer), `error_string` is `importer.GetErrorString()`,
`diffuse_texture` is the value of the reference parameter on entry. -/
def load_mesh (scene : Option aiScene) (error_string : String)
    (filename : List Char) (diffuse_texture : List Char) : LoadResult :=
  match scene with
  | none => ⟨[], diffuse_texture, ["Assimp error: " ++ error_string]⟩
  | some s =>
    match s.incomplete, s.mRootNode with
    | true, _ => ⟨[], diffuse_texture, ["Assimp error: " ++ error_string]⟩
    | false, none => ⟨[], diffuse_texture, ["Assimp error: " ++ error_string]⟩
    | false, some transform =>
      match s.mMeshes with
      | [] => ⟨[], diffuse_texture, ["No meshes found"]⟩
      | mesh :: _ =>
        let result := mesh.mVertices.enum.map (fun ip => load_vertex transform mesh ip.1 ip.2)
        match mesh.material.diffuse with
        | [] => ⟨result, diffuse_texture, []⟩
        | path :: _ =>
          ⟨result, path,
            [String.mk filename ++ " has diffuse texture " ++ String.mk path]⟩

/-! ## Output naming -/

/-- The function `std::to_string(unsigned)`: the decimal digits of `i`, most significant
first, no sign and no padding. -/
def to_string_unsigned (i : Nat) : List Char := Nat.toDigits 10 i

/-- The algorithm `std::replace(first, last, old_value, new_value)`: walks the range once
and overwrites each element equal to `old_value`. -/
def std_replace (old_value new_value : Char) : List Char → List Char
  | [] => []
  | c :: rest =>
    (if c = old_value then new_value else c) :: std_replace old_value new_value rest

/-- The string `base` as it stands after the three `+=` statements
(lines 406-410), before `std::replace`. `to_string_float` is
`std::to_string(float)` of the C++ library, `α` the type of the values it
formats. -/
def base_label {α : Type} (to_string_float : α → List Char) (i : Nat) (fov radius : α) :
    List Char :=
  let base : List Char := []
  let base := base ++ (['S'] ++ to_string_unsigned i)
  let base := base ++ (['F'] ++ to_string_float fov)
  let base := base ++ (['R'] ++ to_string_float radius)
  base

/-- The basename of one sample (lines 406-412). -/
def basename {α : Type} (to_string_float : α → List Char) (i : Nat) (fov radius : α) :
    List Char :=
  std_replace '.' '_' (base_label to_string_float i fov radius)

/-- The label as the specification words it: the characters of
`S{index}F{fov}R{radius}`, each `.` turned into `_` and every other
character kept. -/
def spec_label {α : Type} (to_string_float : α → List Char) (i : Nat) (fov radius : α) :
    List Char :=
  ("S".toList ++ to_string_unsigned i ++ "F".toList ++ to_string_float fov
      ++ "R".toList ++ to_string_float radius).map
    (fun c => if c = '.' then '_' else c)

/-- The path of the colour image of a sample (line 417). -/
def color_path (out base : List Char) : List Char :=
  out ++ "/".toList ++ base ++ "_color.png".toList

/-- The path of the UV image of a sample (line 422). -/
def uv_path (out base : List Char) : List Char :=
  out ++ "/".toList ++ base ++ "_uv.png".toList

/-- The characters of a number given by its sign and its value in
millionths: sign, integer part, a dot and six decimals. -/
def fixed6 (negative : Bool) (m : Nat) : List Char :=
  (if negative then ['-'] else []) ++ Nat.toDigits 10 (m / 1000000) ++ ['.']
    ++ List.replicate (6 - (Nat.toDigits 10 (m % 1000000)).length) '0'
    ++ Nat.toDigits 10 (m % 1000000)

/-- The C library's `%f` conversion, which `std::to_string(float)` applies:
for a finite value six decimals, rounded to nearest with ties to even. Used
to run the model on concrete inputs; the theorems below hold for every
formatter. -/
def printf_f : float → List Char
  | float.finite q =>
    fixed6 (decide (q < 0)) (round_half_even ((if q < 0 then -q else q) * 1000000))
  | float.inf negative => (if negative then ['-'] else []) ++ "inf".toList
  | float.nan => "nan".toList

/-! ## Camera matrices (GLM)

The GLM functions called by lines 388-392 are library code that the program
links against. They are written here as GLM implements them
(`glm/gtx/euler_angles.inl`, `glm/ext/matrix_transform.inl`,
`glm/ext/matrix_clip_space.inl`), over a field `K` with the library's cosine
and sine taken as functions `cos sin : K → K`. -/

/-- The two values `main` can return. -/
inductive ExitStatus
  | EXIT_SUCCESS
  | EXIT_FAILURE
deriving DecidableEq

/-- The option values read from the parse result (lines 145-166), defaults
filled in by the option parser. -/
structure Options where
  input : List Char
  output : List Char
  n : Nat
  w : Nat
  h : Nat
  min_fov : float
  max_fov : float
  min_r : float
  max_r : float

/-- What `options.parse(argc, argv)` and the reads of the option values do:
throw a `cxxopts::OptionException` (unparsable flags), report that `--help`
was given, or deliver the option values. -/
inductive ParseResult
  | OptionException (what : String)
  | help
  | parsed (o : Options)

/-- The observable effects of a run, in program order: diagnostic lines on
standard output, the calls that create window and GPU resources, the draw
call, and the calls that touch the file system, recorded when they are made
whatever their result. Progress lines that no branch depends on
(lines 170-178, 189, 344) are not recorded. -/
inductive Effect
  | cout (line : String)
  | glfwInit
  | glfwCreateWindow (width height : Nat)
  | glewInit
  | glfwTerminate
  | stbi_load (filename : List Char)
  | glCreateTextures
  | glTexImage2D (width height : Int)
  | glCreateVertexArrays
  | glCreateBuffers
  | glCreateShader
  | glCreateProgram
  | glCreateFramebuffers
  | glDrawArrays (count : Nat)
  | create_directory (path : List Char)
  | stbi_write_png (filename : List Char) (w h comp stride_in_bytes : Int)
deriving DecidableEq

/-- Every answer the collaborators give during one run.

* `parse`: the option parser;
* `ReadFile`, `GetErrorString`: the Assimp importer;
* `glfwInit`, `glfwCreateWindow` (non-null window), `glewInit` (`GLEW_OK`);
* `stbi_load`: the decoded image's width and height, `none` for a null
  result;
* `vert_compiled`, `frag_compiled`, `prog_linked`, `infoLog`: the shader
  compiler and linker;
* `fb_w`, `fb_h`: what `glfwGetFramebufferSize` stores;
* `framebuffer_complete`: `glCheckFramebufferStatus` gave
  `GL_FRAMEBUFFER_COMPLETE`;
* `window_should_close`: the window's close flag when the loop is entered;
* `key_escape i`: `glfwGetKey(w, GLFW_KEY_ESCAPE) != GLFW_RELEASE` in
  iteration `i`;
* `close_event i`: `glfwPollEvents` of iteration `i` delivers a close
  request, which sets the close flag;
* `create_directory i`: the call `create_directory(out)` of iteration `i`
  (line 404), the throwing overload: `none` when it returns (the directory
  exists afterwards), `some what` when it throws a `filesystem_error` with
  that message, as it does when the parent directory is missing;
* `stbi_write_png filename`: whether the call of the encoder for this file
  name returns non-zero, which is when it has written the file; `main`
  ignores the value;
* `rdis i`, `fdis i`: the canonical draws in `[0, 1)` behind `rdis(rd)` and
  `fdis(rd)` in iteration `i`;
* `to_string_float`: `std::to_string(float)`. -/
structure World where
  parse : ParseResult
  ReadFile : Option aiScene
  GetErrorString : String
  glfwInit : Bool
  glfwCreateWindow : Bool
  glewInit : Bool
  stbi_load : Option (Int × Int)
  vert_compiled : Bool
  frag_compiled : Bool
  prog_linked : Bool
  infoLog : String
  fb_w : Int
  fb_h : Int
  framebuffer_complete : Bool
  window_should_close : Bool
  key_escape : Nat → Bool
  close_event : Nat → Bool
  create_directory : Nat → Option String
  stbi_write_png : List Char → Bool
  rdis : Nat → ℚ
  fdis : Nat → ℚ
  to_string_float : float → List Char

/-- The variable `min_radius` after lines 147-151. -/
def min_radius (o : Options) : float := (auto_swap o.min_r o.max_r).1

/-- The variable `max_radius` after lines 147-151. -/
def max_radius (o : Options) : float := (auto_swap o.min_r o.max_r).2

/-- The variable `min_fov` after lines 155-159. -/
def min_fov (o : Options) : float := (auto_swap o.min_fov o.max_fov).1

/-- The variable `max_fov` after lines 155-159. -/
def max_fov (o : Options) : float := (auto_swap o.min_fov o.max_fov).2

/-- The `radius` of iteration `i` (lines 380-381). -/
def radius (W : World) (o : Options) (i : Nat) : float :=
  uniform_real_distribution (min_radius o) (max_radius o) (float.finite (W.rdis i))

/-- The `fov` of iteration `i` (lines 383-384). -/
def fov (W : World) (o : Options) (i : Nat) : float :=
  uniform_real_distribution (glm_radians (min_fov o)) (glm_radians (max_fov o))
    (float.finite (W.fdis i))

/-- The `base` of iteration `i` (lines 406-412). -/
def base (W : World) (o : Options) (i : Nat) : List Char :=
  basename W.to_string_float i (fov W o i) (radius W o i)

/-- The variables of the sample loop that change: the counter `i`, the
window's close flag, and the effects so far. -/
structure LoopState where
  i : Nat
  should_close : Bool
  trace : List Effect

/-- How one pass of the loop body ends: at its last statement, with the
new values of the loop variables, or by an exception that leaves the loop,
with the message of the exception and the effects up to it. -/
inductive BodyResult
  | completed (st : LoopState)
  | threw (what : String) (trace : List Effect)

/-- The loop body (lines 373-432): the Escape test sets the close flag,
the sample is drawn and rendered, the output directory is created, which
may throw; then both images are handed to the encoder, `glfwPollEvents` may
set the close flag, and `i` is incremented. Since `i < n` holds here and `n`
is an `unsigned`, the increment does not wrap. -/
def loop_body (W : World) (o : Options) (mesh_size : Nat) (st : LoopState) : BodyResult :=
  let should_close := if W.key_escape st.i then true else st.should_close
  let trace := st.trace ++ [Effect.glDrawArrays mesh_size]
  let trace := trace ++ [Effect.create_directory o.output]
  match W.create_directory st.i with
  | some what => BodyResult.threw what trace
  | none =>
    let trace := trace ++
      [Effect.stbi_write_png (color_path o.output (base W o st.i)) W.fb_w W.fb_h 4 (W.fb_w * 4)]
    let trace := trace ++
      [Effect.stbi_write_png (uv_path o.output (base W o st.i)) W.fb_w W.fb_h 4 (W.fb_w * 4)]
    let should_close := should_close || W.close_event st.i
    BodyResult.completed { i := st.i + 1, should_close := should_close, trace := trace }

/-- The loop `while (i < n && !glfwWindowShouldClose(w))` (line 371), each
evaluation of whose head costs one unit of fuel; `none` when the fuel runs
out. The loop ends when its condition fails or when the body throws. -/
def sample_loop (W : World) (o : Options) (mesh_size : Nat) : Nat → LoopState → Option BodyResult
  | 0, _ => none
  | fuel + 1, st =>
    if st.i < o.n && !st.should_close then
      match loop_body W o mesh_size st with
      | BodyResult.completed st' => sample_loop W o mesh_size fuel st'
      | BodyResult.threw what trace => some (BodyResult.threw what trace)
    else
      some (BodyResult.completed st)

/-- The lines printed for `--help` (lines 132-141). -/
def help_text : List String :=
  [ "Flags: ", "-i <mesh filename>", "-o <output folder>", "-n <sample count>",
    "-w <sample width>", "-h <sample height>", "--min_fov <min fov>",
    "--max_fov <max fov>", "--min_r <min radius>", "--max_r <max radius>" ]

/-- What a run delivers: the value returned by `main` and its effects. -/
structure Outcome where
  status : ExitStatus
  trace : List Effect

/-- The function `main` (lines 109-447). `fuel` bounds the number of times the head of
the sample loop is evaluated; the result is `none` when it runs out, which
no `fuel` above `n` does. -/
def main (fuel : Nat) (W : World) : Option Outcome :=
  match W.parse with
  | ParseResult.OptionException what =>
    -- caught at line 437; control then reaches the `return` of line 446
    some ⟨ExitStatus.EXIT_SUCCESS, [Effect.cout ("Error parsing options: " ++ what)]⟩
  | ParseResult.help =>
    some ⟨ExitStatus.EXIT_SUCCESS, help_text.map Effect.cout⟩
  | ParseResult.parsed o =>
    let diffuse : List Char := []
    let loaded := load_mesh W.ReadFile W.GetErrorString o.input diffuse
    let mesh := loaded.vertices
    let diffuse := loaded.diffuse_texture
    let t := loaded.out.map Effect.cout
    if diffuse.isEmpty then
      some ⟨ExitStatus.EXIT_FAILURE, t ++ [Effect.cout "No diffuse texture"]⟩
    else
    let t := t ++ [Effect.glfwInit]
    if !W.glfwInit then
      some ⟨ExitStatus.EXIT_FAILURE, t ++ [Effect.cout "GLFW initialization failed"]⟩
    else
    let t := t ++ [Effect.glfwCreateWindow o.w o.h]
    if !W.glfwCreateWindow then
      some ⟨ExitStatus.EXIT_FAILURE, t ++ [Effect.cout "Context creation failed"]⟩
    else
    let t := t ++ [Effect.glewInit]
    if !W.glewInit then
      some ⟨ExitStatus.EXIT_FAILURE,
        t ++ [Effect.cout "GLEW initialization failed", Effect.glfwTerminate]⟩
    else
    -- line 219: `diffuse` is not empty here, so the texture is always loaded
    let t := t ++ [Effect.stbi_load diffuse]
    match W.stbi_load with
    | none =>
      some ⟨ExitStatus.EXIT_FAILURE,
        t ++ [Effect.cout ("Can't load " ++ String.mk diffuse), Effect.glfwTerminate]⟩
    | some (tex_w, tex_h) =>
    let t := t ++ [Effect.glCreateTextures, Effect.glTexImage2D tex_w tex_h]
    let t := t ++ [Effect.glCreateVertexArrays, Effect.glCreateBuffers]
    let t := t ++ [Effect.glCreateShader, Effect.glCreateShader]
    if !W.vert_compiled then
      some ⟨ExitStatus.EXIT_FAILURE,
        t ++ [Effect.cout ("Vertex shader error: " ++ W.infoLog), Effect.glfwTerminate]⟩
    else
    if !W.frag_compiled then
      some ⟨ExitStatus.EXIT_FAILURE,
        t ++ [Effect.cout ("Fragment shader error: " ++ W.infoLog), Effect.glfwTerminate]⟩
    else
    let t := t ++ [Effect.glCreateProgram]
    if !W.prog_linked then
      some ⟨ExitStatus.EXIT_FAILURE,
        t ++ [Effect.cout ("Program linking error: " ++ W.infoLog), Effect.glfwTerminate]⟩
    else
    let t := t ++ [Effect.glCreateTextures, Effect.glTexImage2D W.fb_w W.fb_h]
    let t := t ++ [Effect.glCreateTextures, Effect.glTexImage2D W.fb_w W.fb_h]
    let t := t ++ [Effect.glCreateTextures, Effect.glTexImage2D W.fb_w W.fb_h]
    let t := t ++ [Effect.glCreateFramebuffers]
    if !W.framebuffer_complete then
      some ⟨ExitStatus.EXIT_FAILURE,
        t ++ [Effect.cout "Framebuffer initialization failed", Effect.glfwTerminate]⟩
    else
    match sample_loop W o mesh.length fuel ⟨0, W.window_should_close, t⟩ with
    | none => none
    | some (BodyResult.completed st) =>
      -- line 435, then the `return` of line 446
      some ⟨ExitStatus.EXIT_SUCCESS, st.trace ++ [Effect.glfwTerminate]⟩
    | some (BodyResult.threw what trace) =>
      -- caught at line 441; control then reaches the `return` of line 446
      some ⟨ExitStatus.EXIT_SUCCESS, trace ++ [Effect.cout ("Exception: " ++ what)]⟩

/-! ## Vocabulary of the statements -/

/-- The effects of an iteration `i` that runs to its end: the draw
(line 399), the directory creation (line 404) and the two encoder calls
(lines 417 and 422). -/
def iteration_effects (W : World) (o : Options) (mesh_size : Nat) (i : Nat) : List Effect :=
  [ Effect.glDrawArrays mesh_size,
    Effect.create_directory o.output,
    Effect.stbi_write_png (color_path o.output (base W o i)) W.fb_w W.fb_h 4 (W.fb_w * 4),
    Effect.stbi_write_png (uv_path o.output (base W o i)) W.fb_w W.fb_h 4 (W.fb_w * 4) ]

/-- The file names handed to the PNG encoder, in call order. -/
def written_files : List Effect → List (List Char)
  | [] => []
  | Effect.stbi_write_png filename _ _ _ _ :: rest => filename :: written_files rest
  | _ :: rest => written_files rest

/-- The files a run leaves behind: the file names handed to the encoder in
calls that succeeded. -/
def files_on_disk (W : World) (trace : List Effect) : List (List Char) :=
  (written_files trace).filter W.stbi_write_png

/-- The two files of sample `i`, colour image first. -/
def sample_files (W : World) (o : Options) (i : Nat) : List (List Char) :=
  [color_path o.output (base W o i), uv_path o.output (base W o i)]

/-- Every step of the setup succeeds: the options parse to `o`, the import
resolves a diffuse texture, GLFW, the window and GLEW initialise, the
texture decodes, the shaders compile and link, the framebuffer is
complete. -/
def setup_succeeds (W : World) (o : Options) : Prop :=
  W.parse = ParseResult.parsed o ∧
  (load_mesh W.ReadFile W.GetErrorString o.input []).diffuse_texture ≠ [] ∧
  W.glfwInit = true ∧ W.glfwCreateWindow = true ∧ W.glewInit = true ∧
  W.stbi_load ≠ none ∧
  W.vert_compiled = true ∧ W.frag_compiled = true ∧ W.prog_linked = true ∧
  W.framebuffer_complete = true

/-- Whether a close or cancel signal has been raised before iteration `j`
would start: the close flag was set on entry, or Escape was down or a close
request arrived during one of the iterations `0 .. j-1`. -/
def stop_raised (W : World) : Nat → Bool
  | 0 => W.window_should_close
  | j + 1 => stop_raised W j || W.key_escape j || W.close_event j

/-- The import fails: no scene, an incomplete scene, or no root node. -/
def import_failed : Option aiScene → Prop
  | none => True
  | some s => s.incomplete = true ∨ s.mRootNode = none

/-- The import yields zero meshes. -/
def zero_meshes : Option aiScene → Prop
  | none => False
  | some s => s.mMeshes = []

/-- The material of the first mesh has no diffuse texture. -/
def no_diffuse_reference : Option aiScene → Prop
  | none => False
  | some s =>
    match s.mMeshes with
    | [] => False
    | mesh :: _ => mesh.material.diffuse = []

/-- The number a string of decimal digits denotes. -/
def decimal_value (s : List Char) : Nat :=
  s.foldl (fun acc c => 10 * acc + (c.toNat - 48)) 0

/-- The encoder calls of sample `i` as the sample loop issues them: colour
image, then UV image, both with the framebuffer size, four channels and a
row stride of `fb_w * 4` bytes. -/
def encoder_calls (W : World) (o : Options) (i : Nat) : List Effect :=
  [ Effect.stbi_write_png (color_path o.output (base W o i)) W.fb_w W.fb_h 4 (W.fb_w * 4),
    Effect.stbi_write_png (uv_path o.output (base W o i)) W.fb_w W.fb_h 4 (W.fb_w * 4) ]

/-- Whether an effect is a call of the PNG encoder. -/
def Effect.is_write : Effect → Bool
  | Effect.stbi_write_png _ _ _ _ _ => true
  | _ => false

/-- Whether an effect is a diagnostic line on standard output. -/
def Effect.is_cout : Effect → Bool
  | Effect.cout _ => true
  | _ => false

/-- The effects of a setup that succeeds, up to the entry of the sample
loop; `tex_w` and `tex_h` are the size of the decoded diffuse texture. -/
def setup_effects (W : World) (o : Options) (tex_w tex_h : Int) : List Effect :=
  (load_mesh W.ReadFile W.GetErrorString o.input []).out.map Effect.cout ++
    [ Effect.glfwInit,
      Effect.glfwCreateWindow o.w o.h,
      Effect.glewInit,
      Effect.stbi_load (load_mesh W.ReadFile W.GetErrorString o.input []).diffuse_texture,
      Effect.glCreateTextures, Effect.glTexImage2D tex_w tex_h,
      Effect.glCreateVertexArrays, Effect.glCreateBuffers,
      Effect.glCreateShader, Effect.glCreateShader,
      Effect.glCreateProgram,
      Effect.glCreateTextures, Effect.glTexImage2D W.fb_w W.fb_h,
      Effect.glCreateTextures, Effect.glTexImage2D W.fb_w W.fb_h,
      Effect.glCreateTextures, Effect.glTexImage2D W.fb_w W.fb_h,
      Effect.glCreateFramebuffers ]

/-- The number of vertices `load_mesh` returns to `main`. -/
def mesh_size (W : World) (o : Options) : Nat :=
  (load_mesh W.ReadFile W.GetErrorString o.input []).vertices.length

/-! ## Concrete inputs -/

/-- The point or texture coordinate with the given finite components. -/
def point (x y z : ℚ) : aiVector3D := ⟨float.finite x, float.finite y, float.finite z⟩

/-- The identity transform. -/
def identity_transform : aiMatrix4x4 :=
  ⟨float.finite 1, float.finite 0, float.finite 0, float.finite 0,
    float.finite 0, float.finite 1, float.finite 0, float.finite 0,
    float.finite 0, float.finite 0, float.finite 1, float.finite 0,
    float.finite 0, float.finite 0, float.finite 0, float.finite 1⟩

/-- A one-triangle mesh with tiling texture coordinates and a diffuse
texture. -/
def triangle : aiMesh :=
  { mVertices := [point 0 0 0, point 1 0 0, point 0 1 0]
    mTextureCoords0 := some [point (7 / 4) (-1 / 4) 0, point 0 1 0, point (5 / 2) (9 / 4) 0]
    material := ⟨["tex.png".toList]⟩ }

/-- A complete scene holding the triangle. -/
def triangle_scene : aiScene :=
  { incomplete := false, mRootNode := some identity_transform, mMeshes := [triangle] }

/-- The triangle with the first texture coordinate replaced by
`(-2^-30, -2^-25)`, two negative binary32 values close to zero. -/
def near_integer_triangle : aiMesh :=
  { triangle with
    mTextureCoords0 :=
      some [point (-1 / 1073741824) (-1 / 33554432) 0, point 0 1 0,
        point (5 / 2) (9 / 4) 0] }

/-- A complete scene holding `near_integer_triangle`. -/
def near_integer_scene : aiScene :=
  { incomplete := false, mRootNode := some identity_transform
    mMeshes := [near_integer_triangle] }

/-- The option values when only `-n` is given: the defaults of lines
116-124. -/
def default_options (n : Nat) : Options :=
  { input := "foo.fbx".toList, output := "out".toList, n := n, w := 512, h := 512
    min_fov := float.finite 30, max_fov := float.finite 75
    min_r := float.finite (5 / 4), max_r := float.finite 2 }

/-- The defaults with both ranges given in the wrong order:
`s_gen -n n --min_r 2 --max_r 1.25 --min_fov 75 --max_fov 30`. -/
def swapped_options (n : Nat) : Options :=
  { default_options n with
    min_fov := float.finite 75, max_fov := float.finite 30
    min_r := float.finite 2, max_r := float.finite (5 / 4) }

/-- The option values of `s_gen -n n --min_r=-3e38 --max_r=3e38`: the
binary32 value of the numeral `3e38` is `14791142 * 2^104`. -/
def wide_options (n : Nat) : Options :=
  { default_options n with
    min_r := float.finite (-(14791142 * 2 ^ 104))
    max_r := float.finite (14791142 * 2 ^ 104) }

/-- The option values of `s_gen -n n -o missing/out`. -/
def missing_parent_options (n : Nat) : Options :=
  { default_options n with output := "missing/out".toList }

/-- A world in which the setup succeeds, on a display that scales the
512 x 512 window to a 1024 x 1024 framebuffer. The parse result, the
imported scene, the close and cancel signals and the file system are left
open. The canonical draws for the radius cycle through `0, 1/8, .., 7/8`;
every canonical draw for the field of view is `1/2`. -/
def good_world (parse : ParseResult) (scene : Option aiScene)
    (window_should_close : Bool) (key_escape close_event : Nat → Bool)
    (create_directory : Nat → Option String) (stbi_write_png : List Char → Bool) : World :=
  { parse := parse
    ReadFile := scene
    GetErrorString := "unable to open file"
    glfwInit := true
    glfwCreateWindow := true
    glewInit := true
    stbi_load := some (256, 256)
    vert_compiled := true
    frag_compiled := true
    prog_linked := true
    infoLog := ""
    fb_w := 1024
    fb_h := 1024
    framebuffer_complete := true
    window_should_close := window_should_close
    key_escape := key_escape
    close_event := close_event
    create_directory := create_directory
    stbi_write_png := stbi_write_png
    rdis := fun i => ((i % 8 : Nat) : ℚ) / 8
    fdis := fun _ => 1 / 2
    to_string_float := printf_f }

/-- The good world for `s_gen -n n` with no signal ever raised, on a file
system that creates the directory and writes every file. -/
def quiet_world (n : Nat) : World :=
  good_world (ParseResult.parsed (default_options n)) (some triangle_scene) false
    (fun _ => false) (fun _ => false) (fun _ => none) (fun _ => true)

/-- The quiet world for `s_gen -n n -o missing/out` where the directory
`missing` does not exist: every `create_directory` call throws. -/
def missing_parent_world (n : Nat) : World :=
  good_world (ParseResult.parsed (missing_parent_options n)) (some triangle_scene) false
    (fun _ => false) (fun _ => false)
    (fun _ => some "filesystem error: cannot create directory") (fun _ => false)

/-- The quiet world for `s_gen -n n` where the directory `out` exists and
cannot be written to: `create_directory` returns and every encoder call
fails. -/
def read_only_world (n : Nat) : World :=
  good_world (ParseResult.parsed (default_options n)) (some triangle_scene) false
    (fun _ => false) (fun _ => false) (fun _ => none) (fun _ => false)

/-- The quiet world for `s_gen -n n --min_r=-3e38 --max_r=3e38`. -/
def wide_world (n : Nat) : World :=
  good_world (ParseResult.parsed (wide_options n)) (some triangle_scene) false
    (fun _ => false) (fun _ => false) (fun _ => none) (fun _ => true)

/-- A complete scene whose only mesh has a material without diffuse
texture. -/
def untextured_scene : aiScene :=
  { incomplete := false, mRootNode := some identity_transform
    mMeshes := [{ triangle with material := ⟨[]⟩ }] }

/-- The good world for `s_gen -n n` on a mesh without diffuse texture. -/
def untextured_world (n : Nat) : World :=
  good_world (ParseResult.parsed (default_options n)) (some untextured_scene) false
    (fun _ => false) (fun _ => false) (fun _ => none) (fun _ => true)

/-- The good world for `s_gen -n n` in which Escape is held down while
iteration 2 runs. -/
def escape_world (n : Nat) : World :=
  good_world (ParseResult.parsed (default_options n)) (some triangle_scene) false
    (fun i => decide (i = 2)) (fun _ => false) (fun _ => none) (fun _ => true)

/-- The good world for `s_gen -n abc`, on which the option parser throws. -/
def unparsable_world : World :=
  good_world (ParseResult.OptionException "Argument 'abc' failed to parse")
    (some triangle_scene) false (fun _ => false) (fun _ => false) (fun _ => none)
    (fun _ => true)

/-! ## Theorems -/

/-! ### Rounding to the nearest integer -/

theorem round_half_even_of_bounds (x : ℚ) (k : Nat) (h1 : (k : ℚ) - 1 / 2 < x)
    (h2 : x < k + 1 / 2) : round_half_even x = k := by
  unfold round_half_even
  by_cases hx : x < k
  · by_cases hk0 : k = 0
    · subst hk0
      have hx0 : x < 0 := by simpa using hx
      have hfl : ⌊x⌋.toNat = 0 := by
        have hx' : ((⌊x⌋ : ℤ) : ℚ) < 0 := lt_of_le_of_lt (Int.floor_le x) hx0
        have : ⌊x⌋ < 0 := by exact_mod_cast hx'
        omega
      simp only [hfl]
      have hr : ¬ ((1 : ℚ) / 2 < x - ((0 : Nat) : ℚ) ∨
          (x - ((0 : Nat) : ℚ) = 1 / 2 ∧ 0 % 2 = 1)) := by
        rintro (h | ⟨h, -⟩) <;> simp at h <;> linarith
      rw [if_neg hr]
    have hk : 1 ≤ k := by omega
    have hfl : ⌊x⌋ = ((k - 1 : Nat) : ℤ) := by
      apply Int.floor_eq_iff.mpr
      constructor
      · push_cast [Nat.cast_sub hk]
        linarith
      · push_cast [Nat.cast_sub hk]
        linarith
    simp only [hfl, Int.toNat_ofNat]
    have hr : (1 : ℚ) / 2 < x - ((k - 1 : Nat) : ℚ) := by
      push_cast [Nat.cast_sub hk]
      linarith
    rw [if_pos (Or.inl hr)]
    omega
  · have hfl : ⌊x⌋ = (k : ℤ) := by
      apply Int.floor_eq_iff.mpr
      constructor
      · push_cast
        linarith
      · push_cast
        linarith
    simp only [hfl, Int.toNat_ofNat]
    have hr : ¬ ((1 : ℚ) / 2 < x - (k : ℚ) ∨ (x - (k : ℚ) = 1 / 2 ∧ k % 2 = 1)) := by
      rintro (h | ⟨h, -⟩) <;> linarith
    rw [if_neg hr]

theorem round_half_even_bounds (x : ℚ) (hx : 0 ≤ x) :
    (round_half_even x : ℚ) - 1 / 2 ≤ x ∧ x ≤ round_half_even x + 1 / 2 := by
  have hfl : (0 : ℤ) ≤ ⌊x⌋ := Int.floor_nonneg.mpr hx
  have hm : ((⌊x⌋.toNat : ℕ) : ℚ) = (⌊x⌋ : ℚ) := by
    have : ((⌊x⌋.toNat : ℕ) : ℤ) = ⌊x⌋ := Int.toNat_of_nonneg hfl
    exact_mod_cast this
  have h1 : (⌊x⌋ : ℚ) ≤ x := Int.floor_le x
  have h2 : x < (⌊x⌋ : ℚ) + 1 := Int.lt_floor_add_one x
  unfold round_half_even
  simp only []
  split_ifs with h
  · push_cast
    rw [hm]
    rw [hm] at h
    constructor
    · rcases h with h | ⟨h, -⟩ <;> linarith
    · linarith
  · rw [hm]
    rw [hm] at h
    push_neg at h
    constructor
    · linarith
    · linarith [h.1]

theorem round_half_even_mono {x y : ℚ} (hx : 0 ≤ x) (hxy : x ≤ y) :
    round_half_even x ≤ round_half_even y := by
  by_contra hlt
  push_neg at hlt
  have hle : round_half_even y + 1 ≤ round_half_even x := hlt
  have hle' : (round_half_even y : ℚ) + 1 ≤ round_half_even x := by exact_mod_cast hle
  have bx := round_half_even_bounds x hx
  have by' := round_half_even_bounds y (le_trans hx hxy)
  have hxy' : x = y := by linarith [bx.1, by'.2]
  subst hxy'
  omega

theorem round_half_even_natCast (n : ℕ) : round_half_even (n : ℚ) = n := by
  unfold round_half_even
  simp

theorem round_half_even_le_of_le {x : ℚ} (hx : 0 ≤ x) (m : ℕ) (h : x ≤ m) :
    round_half_even x ≤ m := by
  have := round_half_even_mono hx h
  rwa [round_half_even_natCast] at this

theorem round_half_even_ge_of_ge {x : ℚ} (m : ℕ) (h : (m : ℚ) ≤ x) :
    m ≤ round_half_even x := by
  have := round_half_even_mono (Nat.cast_nonneg m) h
  rwa [round_half_even_natCast] at this

theorem round_half_even_lt_of_lt {x : ℚ} (hx : 0 ≤ x) (m : ℕ) (h : x < (m : ℚ) - 1 / 2) :
    round_half_even x < m := by
  have bx := round_half_even_bounds x hx
  have : (round_half_even x : ℚ) < m := by linarith [bx.1]
  exact_mod_cast this

/-! ### Binades -/

theorem two_zpow_pos (z : ℤ) : (0 : ℚ) < (2 : ℚ) ^ z := zpow_pos (by norm_num) z

theorem ulp_pos (x : ℚ) : 0 < ulp x := two_zpow_pos _

theorem binade_of_pos {x : ℚ} (hx : 0 < x) : binade x = max (Int.log 2 x) (-126) := by
  unfold binade
  rw [if_pos hx]

theorem binade_of_nonpos {x : ℚ} (hx : x ≤ 0) : binade x = -126 := by
  unfold binade
  rw [if_neg (not_lt.mpr hx)]

theorem binade_ge (x : ℚ) : -126 ≤ binade x := by
  unfold binade
  split_ifs
  · exact le_max_right _ _
  · exact le_refl _

theorem lt_two_zpow_binade_succ (x : ℚ) : x < (2 : ℚ) ^ (binade x + 1) := by
  by_cases hx : 0 < x
  · have h := Int.lt_zpow_succ_log_self (b := 2) (by norm_num) x
    have hle : Int.log 2 x + 1 ≤ binade x + 1 := by
      have : Int.log 2 x ≤ binade x := by
        rw [binade_of_pos hx]
        exact le_max_left _ _
      omega
    have := zpow_le_zpow_right₀ (a := (2 : ℚ)) (by norm_num) hle
    push_cast at h
    exact lt_of_lt_of_le h this
  · exact lt_of_le_of_lt (not_lt.mp hx) (two_zpow_pos _)

theorem two_zpow_binade_le {x : ℚ} (h : -126 < binade x) :
    (2 : ℚ) ^ binade x ≤ x := by
  by_cases hx : 0 < x
  · have hb : binade x = Int.log 2 x := by
      rw [binade_of_pos hx] at h ⊢
      rcases le_total (Int.log 2 x) (-126) with h1 | h1
      · rw [max_eq_right h1] at h
        omega
      · exact max_eq_left h1
    rw [hb]
    have := Int.zpow_log_le_self (b := 2) (by norm_num) hx
    push_cast at this
    exact this
  · rw [binade_of_nonpos (not_lt.mp hx)] at h
    omega

theorem binade_mono {x y : ℚ} (hxy : x ≤ y) : binade x ≤ binade y := by
  by_cases hx : 0 < x
  · rw [binade_of_pos hx, binade_of_pos (lt_of_lt_of_le hx hxy)]
    exact max_le_max (Int.log_mono_right hx hxy) (le_refl _)
  · rw [binade_of_nonpos (not_lt.mp hx)]
    exact binade_ge y

theorem binade_eq_of_bounds {x : ℚ} (k : ℤ) (hk : -126 ≤ k) (h1 : (2 : ℚ) ^ k ≤ x)
    (h2 : x < (2 : ℚ) ^ (k + 1)) : binade x = k := by
  have hx : 0 < x := lt_of_lt_of_le (two_zpow_pos k) h1
  have hlog : Int.log 2 x = k := by
    apply le_antisymm
    · have : Int.log 2 x < k + 1 := by
        rw [← Int.lt_zpow_iff_log_lt (by norm_num) hx]
        push_cast
        exact h2
      omega
    · rw [← Int.zpow_le_iff_le_log (by norm_num) hx]
      push_cast
      exact h1
  rw [binade_of_pos hx, hlog]
  exact max_eq_left hk

theorem binade_eq_of_small {x : ℚ} (h2 : x < (2 : ℚ) ^ (-125 : ℤ)) : binade x = -126 := by
  by_cases hx : 0 < x
  · rw [binade_of_pos hx]
    apply max_eq_right
    have : Int.log 2 x < -125 := by
      rw [← Int.lt_zpow_iff_log_lt (by norm_num) hx]
      push_cast
      exact h2
    omega
  · exact binade_of_nonpos (not_lt.mp hx)

/-! ### Rounding of magnitudes -/

theorem two_zpow_add (a b : ℤ) : (2 : ℚ) ^ (a + b) = (2 : ℚ) ^ a * (2 : ℚ) ^ b :=
  zpow_add₀ (by norm_num) a b

theorem two_zpow_binade_succ_eq (x : ℚ) : (2 : ℚ) ^ (binade x + 1) = 16777216 * ulp x := by
  unfold ulp
  have : binade x + 1 = 24 + (binade x - 23) := by ring
  rw [this, two_zpow_add]
  norm_num

theorem two_zpow_binade_eq (x : ℚ) : (2 : ℚ) ^ binade x = 8388608 * ulp x := by
  unfold ulp
  have : binade x = 23 + (binade x - 23) := by ring
  conv_lhs => rw [this]
  rw [two_zpow_add]
  norm_num

theorem round_magnitude_nonneg (x : ℚ) : 0 ≤ round_magnitude x := by
  unfold round_magnitude
  exact mul_nonneg (Nat.cast_nonneg _) (le_of_lt (ulp_pos x))

theorem round_magnitude_zero : round_magnitude 0 = 0 := by
  unfold round_magnitude
  rw [zero_div]
  have := round_half_even_natCast 0
  simp only [Nat.cast_zero] at this
  rw [this]
  simp

theorem div_ulp_lt (x : ℚ) : x / ulp x < 16777216 := by
  rw [div_lt_iff₀ (ulp_pos x), ← two_zpow_binade_succ_eq]
  exact lt_two_zpow_binade_succ x

theorem le_div_ulp {x : ℚ} (h : -126 < binade x) : 8388608 ≤ x / ulp x := by
  rw [le_div_iff₀ (ulp_pos x), ← two_zpow_binade_eq]
  exact two_zpow_binade_le h

theorem round_magnitude_le_top {x : ℚ} (hx : 0 ≤ x) :
    round_magnitude x ≤ (2 : ℚ) ^ (binade x + 1) := by
  rw [two_zpow_binade_succ_eq]
  unfold round_magnitude
  apply mul_le_mul_of_nonneg_right _ (le_of_lt (ulp_pos x))
  have h := round_half_even_le_of_le (div_nonneg hx (le_of_lt (ulp_pos x))) 16777216
    (by exact_mod_cast le_of_lt (div_ulp_lt x))
  exact_mod_cast h

theorem round_magnitude_ge_bot {x : ℚ} (h : -126 < binade x) :
    (2 : ℚ) ^ binade x ≤ round_magnitude x := by
  rw [two_zpow_binade_eq]
  unfold round_magnitude
  apply mul_le_mul_of_nonneg_right _ (le_of_lt (ulp_pos x))
  have h' := round_half_even_ge_of_ge (x := x / ulp x) 8388608 (by exact_mod_cast le_div_ulp h)
  exact_mod_cast h'

theorem round_magnitude_mono {x y : ℚ} (hx : 0 ≤ x) (hxy : x ≤ y) :
    round_magnitude x ≤ round_magnitude y := by
  rcases lt_or_eq_of_le (binade_mono hxy) with hlt | heq
  · calc round_magnitude x ≤ (2 : ℚ) ^ (binade x + 1) := round_magnitude_le_top hx
      _ ≤ (2 : ℚ) ^ binade y := zpow_le_zpow_right₀ (by norm_num) (by omega)
      _ ≤ round_magnitude y := round_magnitude_ge_bot (by have := binade_ge x; omega)
  · have hu : ulp x = ulp y := by unfold ulp; rw [heq]
    unfold round_magnitude
    rw [hu]
    apply mul_le_mul_of_nonneg_right _ (le_of_lt (ulp_pos y))
    have := round_half_even_mono (div_nonneg hx (le_of_lt (ulp_pos y)))
      (div_le_div_of_nonneg_right hxy (le_of_lt (ulp_pos y)))
    exact_mod_cast this

theorem round_magnitude_grid_lt (m : ℕ) (z : ℤ) (hm : m < 16777216) (hz : -149 ≤ z) :
    round_magnitude ((m : ℚ) * (2 : ℚ) ^ z) = (m : ℚ) * (2 : ℚ) ^ z := by
  by_cases hm0 : m = 0
  · subst hm0
    simp [round_magnitude_zero]
  have hmpos : (0 : ℚ) < m := by exact_mod_cast Nat.pos_of_ne_zero hm0
  set x : ℚ := (m : ℚ) * (2 : ℚ) ^ z with hx
  have hxpos : 0 < x := mul_pos hmpos (two_zpow_pos z)
  have hlt : x < (2 : ℚ) ^ (z + 24) := by
    have h24 : (2 : ℚ) ^ (z + 24) = 16777216 * (2 : ℚ) ^ z := by
      rw [two_zpow_add]
      norm_num
      ring
    rw [h24, hx]
    apply mul_lt_mul_of_pos_right _ (two_zpow_pos z)
    exact_mod_cast hm
  have hb : binade x ≤ z + 23 := by
    rw [binade_of_pos hxpos]
    apply max_le
    · have : Int.log 2 x < z + 24 := by
        rw [← Int.lt_zpow_iff_log_lt (by norm_num) hxpos]
        push_cast
        exact hlt
      omega
    · omega
  obtain ⟨t, ht⟩ : ∃ t : ℕ, (t : ℤ) = z + 23 - binade x := ⟨(z + 23 - binade x).toNat, by omega⟩
  have hdiv : x / ulp x = ((m * 2 ^ t : ℕ) : ℚ) := by
    rw [div_eq_iff (ne_of_gt (ulp_pos x))]
    unfold ulp
    push_cast
    rw [hx, mul_assoc, ← zpow_natCast, ← two_zpow_add, ht]
    congr 2
    ring
  unfold round_magnitude
  rw [hdiv, round_half_even_natCast, ← hdiv]
  exact div_mul_cancel₀ _ (ne_of_gt (ulp_pos x))

theorem round_magnitude_grid (m : ℕ) (z : ℤ) (hm : m ≤ 16777216) (hz : -149 ≤ z) :
    round_magnitude ((m : ℚ) * (2 : ℚ) ^ z) = (m : ℚ) * (2 : ℚ) ^ z := by
  rcases Nat.lt_or_ge m 16777216 with h | h
  · exact round_magnitude_grid_lt m z h hz
  · have hm' : m = 16777216 := le_antisymm hm h
    subst hm'
    have : ((16777216 : ℕ) : ℚ) * (2 : ℚ) ^ z = ((8388608 : ℕ) : ℚ) * (2 : ℚ) ^ (z + 1) := by
      rw [two_zpow_add]
      norm_num
      ring
    rw [this]
    exact round_magnitude_grid_lt 8388608 (z + 1) (by norm_num) (by omega)

theorem round_magnitude_idem {x : ℚ} (hx : 0 ≤ x) :
    round_magnitude (round_magnitude x) = round_magnitude x := by
  have h := round_half_even_le_of_le (div_nonneg hx (le_of_lt (ulp_pos x))) 16777216
    (by exact_mod_cast le_of_lt (div_ulp_lt x))
  have hz : -149 ≤ binade x - 23 := by have := binade_ge x; omega
  exact round_magnitude_grid _ _ h hz

/-! ### Rounding of signed values -/

theorem round_to_float32_of_nonneg {q : ℚ} (hq : 0 ≤ q) :
    round_to_float32 q = round_magnitude q := by
  unfold round_to_float32
  rw [if_neg (not_lt.mpr hq)]

theorem round_to_float32_of_nonpos {q : ℚ} (hq : q ≤ 0) :
    round_to_float32 q = -round_magnitude (-q) := by
  rcases lt_or_eq_of_le hq with h | h
  · unfold round_to_float32
    rw [if_pos h]
  · subst h
    rw [round_to_float32_of_nonneg (le_refl _)]
    simp [round_magnitude_zero]

theorem round_to_float32_neg (q : ℚ) : round_to_float32 (-q) = -round_to_float32 q := by
  rcases le_total 0 q with h | h
  · rw [round_to_float32_of_nonpos (neg_nonpos.mpr h), round_to_float32_of_nonneg h, neg_neg]
  · rw [round_to_float32_of_nonneg (neg_nonneg.mpr h), round_to_float32_of_nonpos h, neg_neg]

theorem round_to_float32_zero : round_to_float32 0 = 0 := by
  rw [round_to_float32_of_nonneg (le_refl _), round_magnitude_zero]

theorem round_to_float32_nonneg {q : ℚ} (hq : 0 ≤ q) : 0 ≤ round_to_float32 q := by
  rw [round_to_float32_of_nonneg hq]
  exact round_magnitude_nonneg q

theorem round_to_float32_nonpos {q : ℚ} (hq : q ≤ 0) : round_to_float32 q ≤ 0 := by
  rw [round_to_float32_of_nonpos hq]
  exact neg_nonpos.mpr (round_magnitude_nonneg _)

theorem round_to_float32_mono {x y : ℚ} (hxy : x ≤ y) :
    round_to_float32 x ≤ round_to_float32 y := by
  rcases le_total 0 x with hx | hx
  · rw [round_to_float32_of_nonneg hx, round_to_float32_of_nonneg (le_trans hx hxy)]
    exact round_magnitude_mono hx hxy
  · rcases le_total 0 y with hy | hy
    · exact le_trans (round_to_float32_nonpos hx) (round_to_float32_nonneg hy)
    · rw [round_to_float32_of_nonpos hx, round_to_float32_of_nonpos hy]
      exact neg_le_neg (round_magnitude_mono (neg_nonneg.mpr hy) (neg_le_neg hxy))

theorem round_to_float32_idem (q : ℚ) :
    round_to_float32 (round_to_float32 q) = round_to_float32 q := by
  rcases le_total 0 q with h | h
  · rw [round_to_float32_of_nonneg h, round_to_float32_of_nonneg (round_magnitude_nonneg q),
      round_magnitude_idem h]
  · rw [round_to_float32_of_nonpos h, round_to_float32_neg,
      round_to_float32_of_nonneg (round_magnitude_nonneg _),
      round_magnitude_idem (neg_nonneg.mpr h)]

theorem round_to_float32_grid (m : ℕ) (z : ℤ) (hm : m ≤ 16777216) (hz : -149 ≤ z) :
    round_to_float32 ((m : ℚ) * (2 : ℚ) ^ z) = (m : ℚ) * (2 : ℚ) ^ z := by
  rw [round_to_float32_of_nonneg (mul_nonneg (Nat.cast_nonneg m) (le_of_lt (two_zpow_pos z)))]
  exact round_magnitude_grid m z hm hz

theorem round_to_float32_int_grid (n : ℤ) (z : ℤ) (hn : |n| ≤ 16777216) (hz : -149 ≤ z) :
    round_to_float32 ((n : ℚ) * (2 : ℚ) ^ z) = (n : ℚ) * (2 : ℚ) ^ z := by
  rcases le_total 0 n with h | h
  · obtain ⟨m, rfl⟩ := Int.eq_ofNat_of_zero_le h
    have hm : m ≤ 16777216 := by
      rw [abs_of_nonneg h] at hn
      exact_mod_cast hn
    exact_mod_cast round_to_float32_grid m z hm hz
  · obtain ⟨m, hm⟩ := Int.eq_ofNat_of_zero_le (neg_nonneg.mpr h)
    have hn' : n = -(m : ℤ) := by omega
    have hm' : m ≤ 16777216 := by
      rw [abs_of_nonpos h, hm] at hn
      exact_mod_cast hn
    subst hn'
    push_cast
    rw [neg_mul, round_to_float32_neg, round_to_float32_grid m z hm' hz]

theorem fixed_point_multiple {x : ℚ} (hx : round_to_float32 x = x) :
    ∃ n : ℤ, x = (n : ℚ) * (2 : ℚ) ^ (-149 : ℤ) := by
  have key : ∀ y : ℚ, 0 ≤ y → round_magnitude y = y →
      ∃ n : ℤ, y = (n : ℚ) * (2 : ℚ) ^ (-149 : ℤ) := by
    intro y _ hy
    obtain ⟨t, ht⟩ : ∃ t : ℕ, (t : ℤ) = binade y - 23 + 149 :=
      ⟨(binade y - 23 + 149).toNat, by have := binade_ge y; omega⟩
    refine ⟨((round_half_even (y / ulp y) * 2 ^ t : ℕ) : ℤ), ?_⟩
    conv_lhs => rw [← hy]
    unfold round_magnitude ulp
    push_cast
    rw [mul_assoc, ← zpow_natCast, ← two_zpow_add, ht]
    congr 2
    ring
  rcases le_total 0 x with h | h
  · rw [round_to_float32_of_nonneg h] at hx
    exact key x h hx
  · rw [round_to_float32_of_nonpos h] at hx
    obtain ⟨n, hn⟩ := key (-x) (neg_nonneg.mpr h) (by linarith)
    refine ⟨-n, ?_⟩
    push_cast
    linarith

theorem two_zpow_neg_125 : (2 : ℚ) ^ (-125 : ℤ) = 16777216 * (2 : ℚ) ^ (-149 : ℤ) := by
  have : (-125 : ℤ) = 24 + (-149) := by norm_num
  rw [this, two_zpow_add]
  norm_num

theorem small_difference_exact {a b : ℚ} (ha : round_to_float32 a = a)
    (hb : round_to_float32 b = b) (h : |b - a| ≤ (2 : ℚ) ^ (-125 : ℤ)) :
    round_to_float32 (b - a) = b - a := by
  obtain ⟨na, hna⟩ := fixed_point_multiple ha
  obtain ⟨nb, hnb⟩ := fixed_point_multiple hb
  have hd : b - a = ((nb - na : ℤ) : ℚ) * (2 : ℚ) ^ (-149 : ℤ) := by
    push_cast
    rw [hna, hnb]
    ring
  rw [hd]
  apply round_to_float32_int_grid _ _ _ (by norm_num)
  rw [hd, abs_mul, abs_of_pos (two_zpow_pos _), two_zpow_neg_125] at h
  have h2 := le_of_mul_le_mul_right h (two_zpow_pos _)
  have h3 : ((|nb - na| : ℤ) : ℚ) ≤ ((16777216 : ℤ) : ℚ) := by
    push_cast
    exact_mod_cast h2
  exact_mod_cast h3

theorem float32_lt_one {u : ℚ} (hu : round_to_float32 u = u) (h0 : 0 ≤ u) (h1 : u < 1) :
    u ≤ 1 - (2 : ℚ) ^ (-24 : ℤ) := by
  have hc : (2 : ℚ) ^ (-24 : ℤ) = 1 / 16777216 := by norm_num
  rw [hc]
  rcases lt_or_le u (1 / 2) with hlt | hge
  · linarith
  · have hb : binade u = -1 := binade_eq_of_bounds (-1) (by norm_num) (by norm_num; linarith)
      (by norm_num; exact h1)
    have hulp : ulp u = 1 / 16777216 := by unfold ulp; rw [hb]; norm_num
    rw [round_to_float32_of_nonneg h0] at hu
    unfold round_magnitude at hu
    rw [hulp] at hu
    generalize round_half_even (u / (1 / 16777216)) = N at hu
    have hN : (N : ℚ) < 16777216 := by linarith
    have hN' : N ≤ 16777215 := by
      have : N < 16777216 := by exact_mod_cast hN
      omega
    have hN'' : (N : ℚ) ≤ 16777215 := by exact_mod_cast hN'
    linarith

theorem binade_two_zpow (k : ℤ) (hk : -126 ≤ k) : binade ((2 : ℚ) ^ k) = k :=
  binade_eq_of_bounds k hk (le_refl _) (zpow_lt_zpow_right₀ (by norm_num) (by omega))

theorem round_to_float32_two_zpow (k : ℤ) (hk : -149 ≤ k) :
    round_to_float32 ((2 : ℚ) ^ k) = (2 : ℚ) ^ k := by
  have := round_to_float32_grid 1 k (by norm_num) hk
  simpa using this

/-- Scaling a float of the normal range by a factor of at most `1 - 2^-24`
rounds to a smaller float. -/
theorem round_scaled_lt {d u : ℚ} (hd : round_to_float32 d = d)
    (hdmin : (2 : ℚ) ^ (-125 : ℤ) ≤ d) (hu0 : 0 ≤ u) (hu1 : u ≤ 1 - (2 : ℚ) ^ (-24 : ℤ)) :
    round_to_float32 (u * d) < d := by
  have hc : (2 : ℚ) ^ (-24 : ℤ) = 1 / 16777216 := by norm_num
  rw [hc] at hu1
  have hdpos : 0 < d := lt_of_lt_of_le (two_zpow_pos _) hdmin
  have hx0 : 0 ≤ u * d := mul_nonneg hu0 (le_of_lt hdpos)
  have he : -125 ≤ binade d := by
    have := binade_mono hdmin
    rwa [binade_two_zpow _ (by norm_num)] at this
  have he' : -126 < binade d := by omega
  have hlo : (2 : ℚ) ^ binade d ≤ d := two_zpow_binade_le he'
  have hup : d / ulp d < 16777216 := div_ulp_lt d
  have hdN : (round_half_even (d / ulp d) : ℚ) * ulp d = d := by
    have := hd
    rw [round_to_float32_of_nonneg (le_of_lt hdpos)] at this
    exact this
  have hN : d / ulp d = (round_half_even (d / ulp d) : ℚ) := by
    rw [div_eq_iff (ne_of_gt (ulp_pos d))]
    exact hdN.symm
  have hN23 : (8388608 : ℚ) ≤ d / ulp d := le_div_ulp he'
  rw [round_to_float32_of_nonneg hx0]
  generalize hNdef : round_half_even (d / ulp d) = N at hN hdN
  have hNge : 8388608 ≤ N := by
    rw [hN] at hN23
    exact_mod_cast hN23
  have hulp := ulp_pos d
  rcases Nat.eq_or_lt_of_le hNge with heq | hgt
  · -- d is a power of two
    subst heq
    have hd2 : d = (2 : ℚ) ^ binade d := by
      rw [two_zpow_binade_eq]
      have := hdN
      push_cast at this
      exact this.symm
    have hg : round_magnitude (((16777215 : ℕ) : ℚ) * (2 : ℚ) ^ (binade d - 24))
        = ((16777215 : ℕ) : ℚ) * (2 : ℚ) ^ (binade d - 24) :=
      round_magnitude_grid 16777215 _ (by norm_num) (by omega)
    have hd3 : d = 16777216 * (2 : ℚ) ^ (binade d - 24) := by
      conv_lhs => rw [hd2]
      have : binade d = 24 + (binade d - 24) := by ring
      conv_lhs => rw [this]
      rw [two_zpow_add]
      norm_num
    have hp := two_zpow_pos (binade d - 24)
    have hle : u * d ≤ ((16777215 : ℕ) : ℚ) * (2 : ℚ) ^ (binade d - 24) := by
      push_cast
      have : u * d ≤ (1 - 1 / 16777216) * d := mul_le_mul_of_nonneg_right hu1 (le_of_lt hdpos)
      calc u * d ≤ (1 - 1 / 16777216) * d := this
        _ = (1 - 1 / 16777216) * (16777216 * (2 : ℚ) ^ (binade d - 24)) := by rw [← hd3]
        _ = 16777215 * (2 : ℚ) ^ (binade d - 24) := by ring
    calc round_magnitude (u * d)
        ≤ round_magnitude (((16777215 : ℕ) : ℚ) * (2 : ℚ) ^ (binade d - 24)) :=
          round_magnitude_mono hx0 hle
      _ = ((16777215 : ℕ) : ℚ) * (2 : ℚ) ^ (binade d - 24) := hg
      _ < d := by
          conv_rhs => rw [hd3]
          push_cast
          linarith
  · -- d is above the bottom of its binade
    have hNq : (8388608 : ℚ) < N := by exact_mod_cast hgt
    rcases lt_or_le (u * d) ((2 : ℚ) ^ binade d) with hsmall | hbig
    · have h2 : round_magnitude ((2 : ℚ) ^ binade d) = (2 : ℚ) ^ binade d := by
        have := round_to_float32_two_zpow (binade d) (by omega)
        rwa [round_to_float32_of_nonneg (le_of_lt (two_zpow_pos _))] at this
      calc round_magnitude (u * d) ≤ round_magnitude ((2 : ℚ) ^ binade d) :=
            round_magnitude_mono hx0 (le_of_lt hsmall)
        _ = (2 : ℚ) ^ binade d := h2
        _ = 8388608 * ulp d := two_zpow_binade_eq d
        _ < N * ulp d := mul_lt_mul_of_pos_right hNq hulp
        _ = d := hdN
    · have hud : u * d ≤ d := by
        have : u * d ≤ 1 * d := mul_le_mul_of_nonneg_right (by linarith) (le_of_lt hdpos)
        linarith
      have hbx : binade (u * d) = binade d :=
        binade_eq_of_bounds _ (by omega) hbig (lt_of_le_of_lt hud (lt_two_zpow_binade_succ d))
      have hux : ulp (u * d) = ulp d := by unfold ulp; rw [hbx]
      have hdiv : u * d / ulp d = u * N := by
        rw [mul_div_assoc, hN]
      have hlt : round_half_even (u * d / ulp d) < N := by
        apply round_half_even_lt_of_lt (div_nonneg hx0 (le_of_lt hulp))
        rw [hdiv]
        have hNpos : (0 : ℚ) < N := by linarith
        have : u * N ≤ (1 - 1 / 16777216) * N := mul_le_mul_of_nonneg_right hu1 (le_of_lt hNpos)
        linarith
      unfold round_magnitude
      rw [hux]
      calc (round_half_even (u * d / ulp d) : ℚ) * ulp d < N * ulp d :=
            mul_lt_mul_of_pos_right (by exact_mod_cast hlt) hulp
        _ = d := hdN

/-- The float computation `a + u * (b - a)` of a uniform draw, every
operation rounded: when no rounding overflows, the result lies in `[a, b]`. -/
theorem uniform_draw_within {a b u : ℚ} (ha : round_to_float32 a = a)
    (hb : round_to_float32 b = b) (hab : a ≤ b) (hu : round_to_float32 u = u)
    (hu0 : 0 ≤ u) (hu1 : u < 1) :
    0 ≤ round_to_float32 (u * round_to_float32 (b - a)) ∧
    round_to_float32 (u * round_to_float32 (b - a)) ≤ round_to_float32 (b - a) ∧
    a ≤ round_to_float32 (a + round_to_float32 (u * round_to_float32 (b - a))) ∧
    round_to_float32 (a + round_to_float32 (u * round_to_float32 (b - a))) ≤ b := by
  have hD : 0 ≤ b - a := sub_nonneg.mpr hab
  have hd0 : 0 ≤ round_to_float32 (b - a) := round_to_float32_nonneg hD
  set d := round_to_float32 (b - a) with hd
  have hdd : round_to_float32 d = d := round_to_float32_idem _
  have hp0 : 0 ≤ round_to_float32 (u * d) := round_to_float32_nonneg (mul_nonneg hu0 hd0)
  have hpd : round_to_float32 (u * d) ≤ d := by
    have : u * d ≤ d := by
      have : u * d ≤ 1 * d := mul_le_mul_of_nonneg_right (le_of_lt hu1) hd0
      linarith
    have := round_to_float32_mono this
    rwa [hdd] at this
  set p := round_to_float32 (u * d) with hp
  have hpp : round_to_float32 p = p := round_to_float32_idem _
  refine ⟨hp0, hpd, ?_, ?_⟩
  · have := round_to_float32_mono (show a ≤ a + p by linarith)
    rwa [ha] at this
  · have hpD : p ≤ b - a := by
      by_contra hcon
      push_neg at hcon
      have h1 : d ≤ p := by
        have := round_to_float32_mono (le_of_lt hcon)
        rwa [hpp] at this
      have hpeq : p = d := le_antisymm hpd h1
      have hdD : b - a < d := by rw [← hpeq]; exact hcon
      rcases lt_or_le d ((2 : ℚ) ^ (-125 : ℤ)) with hsmall | hbig
      · have hex : round_to_float32 (b - a) = b - a := by
          apply small_difference_exact ha hb
          rw [abs_of_nonneg hD]
          linarith
        rw [← hd] at hex
        linarith
      · have := round_scaled_lt hdd hbig hu0 (float32_lt_one hu hu0 hu1)
        rw [← hp, hpeq] at this
        exact lt_irrefl _ this
    have := round_to_float32_mono (show a + p ≤ b by linarith)
    rwa [hb] at this

/-! ### Values of type `float` -/

theorem float_round_of_lt {q : ℚ} (h : |round_to_float32 q| < (2 : ℚ) ^ (128 : ℤ)) :
    float.round q = float.finite (round_to_float32 q) := by
  unfold float.round
  rw [if_neg (not_le.mpr h)]

theorem float_round_of_ge {q : ℚ} (h : (2 : ℚ) ^ (128 : ℤ) ≤ |round_to_float32 q|) :
    float.round q = float.inf (decide (q < 0)) := by
  unfold float.round
  rw [if_pos h]

theorem abs_round_to_float32_le {q B : ℚ} (hB : round_to_float32 B = B) (hq : |q| ≤ B) :
    |round_to_float32 q| ≤ B := by
  rw [abs_le] at hq ⊢
  constructor
  · have := round_to_float32_mono hq.1
    rwa [round_to_float32_neg, hB] at this
  · have := round_to_float32_mono hq.2
    rwa [hB] at this

theorem round_to_float32_eq_of_bounds {q : ℚ} (k : ℤ) (m : ℕ) (hk : -126 ≤ k)
    (h1 : (2 : ℚ) ^ k ≤ q) (h2 : q < (2 : ℚ) ^ (k + 1))
    (h3 : (m : ℚ) - 1 / 2 < q / (2 : ℚ) ^ (k - 23))
    (h4 : q / (2 : ℚ) ^ (k - 23) < m + 1 / 2) :
    round_to_float32 q = (m : ℚ) * (2 : ℚ) ^ (k - 23) := by
  have hq : 0 ≤ q := le_trans (le_of_lt (two_zpow_pos k)) h1
  rw [round_to_float32_of_nonneg hq]
  unfold round_magnitude ulp
  rw [binade_eq_of_bounds k hk h1 h2, round_half_even_of_bounds _ m h3 h4]

theorem is_float32_grid (m : ℕ) (z : ℤ) (hm : m ≤ 16777216) (hz : -149 ≤ z)
    (hlt : (m : ℚ) * (2 : ℚ) ^ z < (2 : ℚ) ^ (128 : ℤ)) :
    is_float32 ((m : ℚ) * (2 : ℚ) ^ z) := by
  refine ⟨round_to_float32_grid m z hm hz, ?_⟩
  rw [abs_of_nonneg (mul_nonneg (Nat.cast_nonneg m) (le_of_lt (two_zpow_pos z)))]
  exact hlt

theorem is_float32_neg {x : ℚ} (h : is_float32 x) : is_float32 (-x) := by
  refine ⟨?_, ?_⟩
  · rw [round_to_float32_neg, h.1]
  · rw [abs_neg]
    exact h.2

/-- The draw `u * (b - a) + a` in `float` for finite bounds `a ≤ b` and a
canonical draw `u` in `[0, 1)`, when the difference `b - a` does not
overflow: a finite value in `[a, b]`. -/
theorem uniform_real_distribution_finite {a b u : ℚ} (ha : is_float32 a) (hb : is_float32 b)
    (hab : a ≤ b) (hu : is_float32 u) (hu0 : 0 ≤ u) (hu1 : u < 1)
    (hd : |round_to_float32 (b - a)| < (2 : ℚ) ^ (128 : ℤ)) :
    ∃ r : ℚ, uniform_real_distribution (float.finite a) (float.finite b) (float.finite u)
        = float.finite r ∧ a ≤ r ∧ r ≤ b := by
  obtain ⟨hp0, hpd, hlo, hhi⟩ := uniform_draw_within ha.1 hb.1 hab hu.1 hu0 hu1
  have hd0 : 0 ≤ round_to_float32 (b - a) := round_to_float32_nonneg (sub_nonneg.mpr hab)
  have hsub : float.sub (float.finite b) (float.finite a)
      = float.finite (round_to_float32 (b - a)) := by
    simp only [float.sub, float.neg, float.add]
    rw [← sub_eq_add_neg]
    exact float_round_of_lt hd
  have hmul : float.mul (float.finite u) (float.finite (round_to_float32 (b - a)))
      = float.finite (round_to_float32 (u * round_to_float32 (b - a))) := by
    simp only [float.mul]
    apply float_round_of_lt
    rw [abs_of_nonneg hp0]
    rw [abs_of_nonneg hd0] at hd
    exact lt_of_le_of_lt hpd hd
  have hadd : float.add (float.finite (round_to_float32 (u * round_to_float32 (b - a))))
      (float.finite a)
      = float.finite (round_to_float32 (a + round_to_float32 (u * round_to_float32 (b - a)))) := by
    simp only [float.add]
    rw [add_comm (round_to_float32 (u * round_to_float32 (b - a))) a]
    apply float_round_of_lt
    rw [abs_lt]
    have ha2 := abs_lt.mp ha.2
    have hb2 := abs_lt.mp hb.2
    constructor <;> linarith
  refine ⟨_, ?_, hlo, hhi⟩
  unfold uniform_real_distribution
  rw [hsub, hmul, hadd]

/-- The same draw when the difference `b - a` overflows: not a number, or
the positive infinity. -/
theorem uniform_real_distribution_overflow {a b u : ℚ} (hab : a ≤ b) (hu0 : 0 ≤ u)
    (hd : (2 : ℚ) ^ (128 : ℤ) ≤ |round_to_float32 (b - a)|) :
    uniform_real_distribution (float.finite a) (float.finite b) (float.finite u)
      = (if u = 0 then float.nan else float.inf false) := by
  have hsub : float.sub (float.finite b) (float.finite a) = float.inf false := by
    simp only [float.sub, float.neg, float.add]
    rw [← sub_eq_add_neg, float_round_of_ge hd]
    have : ¬ (b - a < 0) := not_lt.mpr (sub_nonneg.mpr hab)
    simp [this]
  unfold uniform_real_distribution
  rw [hsub]
  simp only [float.mul]
  by_cases h0 : u = 0
  · simp [h0, float.add]
  · have : ¬ (u < 0) := not_lt.mpr hu0
    simp [h0, this, float.add]

theorem glm_radians_factor_bounds :
    0 < glm_radians_factor ∧ glm_radians_factor ≤ (2 : ℚ) ^ (-5 : ℤ) := by
  unfold glm_radians_factor
  norm_num

/-- The conversion `glm::radians` of a finite `float` is finite, of
magnitude at most `2^123`. -/
theorem glm_radians_finite {x : ℚ} (hx : is_float32 x) :
    glm_radians (float.finite x) = float.finite (round_to_float32 (x * glm_radians_factor)) ∧
    |round_to_float32 (x * glm_radians_factor)| ≤ (2 : ℚ) ^ (123 : ℤ) := by
  have hbound : |round_to_float32 (x * glm_radians_factor)| ≤ (2 : ℚ) ^ (123 : ℤ) := by
    apply abs_round_to_float32_le (round_to_float32_two_zpow 123 (by norm_num))
    rw [abs_mul, abs_of_pos glm_radians_factor_bounds.1]
    have h123 : (2 : ℚ) ^ (123 : ℤ) = (2 : ℚ) ^ (128 : ℤ) * (2 : ℚ) ^ (-5 : ℤ) := by
      rw [← two_zpow_add]
      norm_num
    rw [h123]
    exact mul_le_mul (le_of_lt hx.2) glm_radians_factor_bounds.2
      (le_of_lt glm_radians_factor_bounds.1) (le_of_lt (two_zpow_pos _))
  refine ⟨?_, hbound⟩
  simp only [glm_radians, float.mul]
  apply float_round_of_lt
  exact lt_of_le_of_lt hbound (zpow_lt_zpow_right₀ (by norm_num) (by norm_num))

theorem glm_radians_mono {x y : ℚ} (hxy : x ≤ y) :
    round_to_float32 (x * glm_radians_factor) ≤ round_to_float32 (y * glm_radians_factor) :=
  round_to_float32_mono (mul_le_mul_of_nonneg_right hxy (le_of_lt glm_radians_factor_bounds.1))

theorem auto_swap_finite (a b : ℚ) :
    ∃ lo hi : ℚ, auto_swap (float.finite a) (float.finite b) = (float.finite lo, float.finite hi) ∧
      lo ≤ hi ∧ ((lo, hi) = (a, b) ∨ (lo, hi) = (b, a)) := by
  unfold auto_swap float.lt
  by_cases h : b < a
  · exact ⟨b, a, by simp [h], le_of_lt h, Or.inr rfl⟩
  · exact ⟨a, b, by simp [h], not_lt.mp h, Or.inl rfl⟩

theorem round_to_float32_of_grid {q : ℚ} (m : ℕ) (z : ℤ) (hq : q = (m : ℚ) * (2 : ℚ) ^ z)
    (hm : m ≤ 16777216) (hz : -149 ≤ z) : round_to_float32 q = q := by
  rw [hq]
  exact round_to_float32_grid m z hm hz

theorem is_float32_of_grid {q : ℚ} (m : ℕ) (z : ℤ) (hq : q = (m : ℚ) * (2 : ℚ) ^ z)
    (hm : m ≤ 16777216) (hz : -149 ≤ z) (hlt : q < (2 : ℚ) ^ (128 : ℤ)) : is_float32 q := by
  refine ⟨round_to_float32_of_grid m z hq hm hz, ?_⟩
  rw [abs_of_nonneg (by rw [hq]; exact mul_nonneg (Nat.cast_nonneg m) (le_of_lt (two_zpow_pos z)))]
  exact hlt

theorem float_round_eq {q r : ℚ} (h : round_to_float32 q = r)
    (hr : |r| < (2 : ℚ) ^ (128 : ℤ)) : float.round q = float.finite r := by
  rw [← h] at hr
  rw [float_round_of_lt hr, h]

/-- Evaluation of a draw whose three roundings are known. -/
theorem uniform_real_distribution_eval {a b u d p r : ℚ}
    (hd : round_to_float32 (b - a) = d) (hp : round_to_float32 (u * d) = p)
    (hr : round_to_float32 (a + p) = r) (hd' : |d| < (2 : ℚ) ^ (128 : ℤ))
    (hp' : |p| < (2 : ℚ) ^ (128 : ℤ)) (hr' : |r| < (2 : ℚ) ^ (128 : ℤ)) :
    uniform_real_distribution (float.finite a) (float.finite b) (float.finite u)
      = float.finite r := by
  simp only [uniform_real_distribution, float.sub, float.neg, float.add]
  rw [← sub_eq_add_neg, float_round_eq hd hd']
  simp only [float.mul]
  rw [float_round_eq hp hp']
  simp only [float.add]
  rw [add_comm p a, float_round_eq hr hr']

theorem abs_lt_of_nonneg {r B : ℚ} (h0 : 0 ≤ r) (h : r < B) : |r| < B := by
  rw [abs_of_nonneg h0]
  exact h

theorem round_to_float32_eq_grid {q r : ℚ} (m : ℕ) (z : ℤ) (hq : q = (m : ℚ) * (2 : ℚ) ^ z)
    (hr : r = (m : ℚ) * (2 : ℚ) ^ z) (hm : m ≤ 16777216) (hz : -149 ≤ z) :
    round_to_float32 q = r := by
  rw [hr, hq]
  exact round_to_float32_grid m z hm hz

/-! ### Sampled radius and field of view -/

/-- C1, as amended. For every pair of finite `float` values configured as
radius bounds and as FOV bounds, in either order, and for canonical draws in
`[0, 1)`: after the auto-swap the bounds are ordered and are the two
configured values; the FOV bounds in radians are the configured bounds
multiplied in `float` by the `float` constant of `glm::radians`, and the
sampled FOV is a finite value between them; the sampled radius is a finite
value in `[min_radius, max_radius]` whenever the `float` difference
`max_radius - min_radius` does not overflow, and is NaN or the positive
infinity when it does. -/
theorem sampled_radius_and_fov_within_normalised_bounds (W : World) (o : Options) (i : Nat)
    (a b c d : ℚ)
    (hmin_r : o.min_r = float.finite a) (hmax_r : o.max_r = float.finite b)
    (hmin_fov : o.min_fov = float.finite c) (hmax_fov : o.max_fov = float.finite d)
    (ha : is_float32 a) (hb : is_float32 b) (hc : is_float32 c) (hd : is_float32 d)
    (hr : is_float32 (W.rdis i) ∧ 0 ≤ W.rdis i ∧ W.rdis i < 1)
    (hf : is_float32 (W.fdis i) ∧ 0 ≤ W.fdis i ∧ W.fdis i < 1) :
    ∃ lo hi flo fhi : ℚ,
      (min_radius o = float.finite lo ∧ max_radius o = float.finite hi ∧ lo ≤ hi ∧
        ((lo, hi) = (a, b) ∨ (lo, hi) = (b, a))) ∧
      (min_fov o = float.finite flo ∧ max_fov o = float.finite fhi ∧ flo ≤ fhi ∧
        ((flo, fhi) = (c, d) ∨ (flo, fhi) = (d, c))) ∧
      (|round_to_float32 (hi - lo)| < (2 : ℚ) ^ (128 : ℤ) →
        ∃ r : ℚ, radius W o i = float.finite r ∧ lo ≤ r ∧ r ≤ hi) ∧
      ((2 : ℚ) ^ (128 : ℤ) ≤ |round_to_float32 (hi - lo)| →
        radius W o i = float.nan ∨ radius W o i = float.inf false) ∧
      (∃ rlo rhi f : ℚ,
        glm_radians (min_fov o) = float.finite rlo ∧
        glm_radians (max_fov o) = float.finite rhi ∧
        rlo = round_to_float32 (flo * glm_radians_factor) ∧
        rhi = round_to_float32 (fhi * glm_radians_factor) ∧
        fov W o i = float.finite f ∧ rlo ≤ f ∧ f ≤ rhi) ∧
      |glm_radians_factor - 1745329251994329576923690768489 / 100000000000000000000000000000000|
        < 1 / 1000000000 := by
  obtain ⟨lo, hi, hsw, hle, hcase⟩ := auto_swap_finite a b
  obtain ⟨flo, fhi, hfsw, hfle, hfcase⟩ := auto_swap_finite c d
  have hlo : is_float32 lo := by
    rcases hcase with h | h <;> simp only [Prod.mk.injEq] at h <;> rw [h.1] <;> assumption
  have hhi : is_float32 hi := by
    rcases hcase with h | h <;> simp only [Prod.mk.injEq] at h <;> rw [h.2] <;> assumption
  have hflo : is_float32 flo := by
    rcases hfcase with h | h <;> simp only [Prod.mk.injEq] at h <;> rw [h.1] <;> assumption
  have hfhi : is_float32 fhi := by
    rcases hfcase with h | h <;> simp only [Prod.mk.injEq] at h <;> rw [h.2] <;> assumption
  have hminr : min_radius o = float.finite lo := by
    unfold min_radius
    rw [hmin_r, hmax_r, hsw]
  have hmaxr : max_radius o = float.finite hi := by
    unfold max_radius
    rw [hmin_r, hmax_r, hsw]
  have hminf : min_fov o = float.finite flo := by
    unfold min_fov
    rw [hmin_fov, hmax_fov, hfsw]
  have hmaxf : max_fov o = float.finite fhi := by
    unfold max_fov
    rw [hmin_fov, hmax_fov, hfsw]
  refine ⟨lo, hi, flo, fhi, ⟨hminr, hmaxr, hle, hcase⟩, ⟨hminf, hmaxf, hfle, hfcase⟩, ?_, ?_, ?_, ?_⟩
  · intro hfin
    unfold radius
    rw [hminr, hmaxr]
    exact uniform_real_distribution_finite hlo hhi hle hr.1 hr.2.1 hr.2.2 hfin
  · intro hover
    unfold radius
    rw [hminr, hmaxr, uniform_real_distribution_overflow hle hr.2.1 hover]
    split_ifs
    · exact Or.inl rfl
    · exact Or.inr rfl
  · obtain ⟨hrlo, hblo⟩ := glm_radians_finite hflo
    obtain ⟨hrhi, hbhi⟩ := glm_radians_finite hfhi
    have h2 : (2 : ℚ) ^ (123 : ℤ) < (2 : ℚ) ^ (128 : ℤ) :=
      zpow_lt_zpow_right₀ (by norm_num) (by norm_num)
    have hfl_lo : is_float32 (round_to_float32 (flo * glm_radians_factor)) :=
      ⟨round_to_float32_idem _, lt_of_le_of_lt hblo h2⟩
    have hfl_hi : is_float32 (round_to_float32 (fhi * glm_radians_factor)) :=
      ⟨round_to_float32_idem _, lt_of_le_of_lt hbhi h2⟩
    have hdiff : |round_to_float32 (round_to_float32 (fhi * glm_radians_factor)
        - round_to_float32 (flo * glm_radians_factor))| < (2 : ℚ) ^ (128 : ℤ) := by
      have h124 : (2 : ℚ) ^ (124 : ℤ) = (2 : ℚ) ^ (123 : ℤ) + (2 : ℚ) ^ (123 : ℤ) := by
        have : (124 : ℤ) = 123 + 1 := by norm_num
        rw [this, two_zpow_add]
        norm_num
      have hle124 : |round_to_float32 (round_to_float32 (fhi * glm_radians_factor)
          - round_to_float32 (flo * glm_radians_factor))| ≤ (2 : ℚ) ^ (124 : ℤ) := by
        apply abs_round_to_float32_le (round_to_float32_two_zpow 124 (by norm_num))
        rw [h124]
        exact le_trans (abs_sub _ _) (add_le_add hbhi hblo)
      exact lt_of_le_of_lt hle124 (zpow_lt_zpow_right₀ (by norm_num) (by norm_num))
    obtain ⟨f, hfeq, hf1, hf2⟩ := uniform_real_distribution_finite hfl_lo hfl_hi
      (glm_radians_mono hfle) hf.1 hf.2.1 hf.2.2 hdiff
    refine ⟨_, _, f, ?_, ?_, rfl, rfl, ?_, hf1, hf2⟩
    · rw [hminf, hrlo]
    · rw [hmaxf, hrhi]
    · unfold fov
      rw [hminf, hmaxf, hrlo, hrhi]
      exact hfeq
  · unfold glm_radians_factor
    rw [abs_lt]
    constructor <;> norm_num

/-- The claim C1 fails for `s_gen --min_r=-3e38 --max_r=3e38`: both bounds
are finite `float` values in the right order and the canonical draw `1/8`
lies in `[0, 1)`, yet the `float` difference of the bounds overflows and the
sampled radius is the positive infinity, not a value between the bounds. -/
theorem radius_of_wide_range_is_infinite :
    (is_float32 (-(14791142 * 2 ^ 104)) ∧ is_float32 (14791142 * 2 ^ 104) ∧
      is_float32 ((wide_world 5).rdis 1) ∧
      0 ≤ (wide_world 5).rdis 1 ∧ (wide_world 5).rdis 1 < 1) ∧
    min_radius (wide_options 5) = float.finite (-(14791142 * 2 ^ 104)) ∧
    max_radius (wide_options 5) = float.finite (14791142 * 2 ^ 104) ∧
    radius (wide_world 5) (wide_options 5) 1 = float.inf false ∧
    ¬ ∃ r : ℚ, radius (wide_world 5) (wide_options 5) 1 = float.finite r ∧
      -(14791142 * 2 ^ 104) ≤ r ∧ r ≤ 14791142 * 2 ^ 104 := by
  have hM : is_float32 (14791142 * 2 ^ 104) :=
    is_float32_of_grid 14791142 104 (by norm_num) (by norm_num) (by norm_num) (by norm_num)
  have hu : is_float32 ((wide_world 5).rdis 1) :=
    is_float32_of_grid 1 (-3) (by norm_num [wide_world, good_world]) (by norm_num) (by norm_num)
      (by norm_num [wide_world, good_world])
  have hmin : min_radius (wide_options 5) = float.finite (-(14791142 * 2 ^ 104)) := by
    simp only [min_radius, wide_options, auto_swap, float.lt]
    norm_num
  have hmax : max_radius (wide_options 5) = float.finite (14791142 * 2 ^ 104) := by
    simp only [max_radius, wide_options, auto_swap, float.lt]
    norm_num
  have hradius : radius (wide_world 5) (wide_options 5) 1 = float.inf false := by
    unfold radius
    rw [hmin, hmax, uniform_real_distribution_overflow (by norm_num)
      (by norm_num [wide_world, good_world])]
    · norm_num [wide_world, good_world]
    · rw [round_to_float32_of_grid 14791142 105 (by norm_num) (by norm_num) (by norm_num)]
      norm_num
  refine ⟨⟨is_float32_neg hM, hM, hu, by norm_num [wide_world, good_world],
    by norm_num [wide_world, good_world]⟩, hmin, hmax, hradius, ?_⟩
  rintro ⟨r, hr, -, -⟩
  rw [hradius] at hr
  cases hr

theorem glm_radians_30 :
    glm_radians (float.finite 30) = float.finite (4392265 / 8388608) := by
  simp only [glm_radians, float.mul]
  apply float_round_eq _ (abs_lt_of_nonneg (by norm_num) (by norm_num))
  rw [round_to_float32_eq_of_bounds (-1) 8784530 (by norm_num)
    (by norm_num [glm_radians_factor]) (by norm_num [glm_radians_factor])
    (by norm_num [glm_radians_factor]) (by norm_num [glm_radians_factor])]
  norm_num

theorem glm_radians_75 :
    glm_radians (float.finite 75) = float.finite (5490331 / 4194304) := by
  simp only [glm_radians, float.mul]
  apply float_round_eq _ (abs_lt_of_nonneg (by norm_num) (by norm_num))
  rw [round_to_float32_eq_of_bounds 0 10980662 (by norm_num)
    (by norm_num [glm_radians_factor]) (by norm_num [glm_radians_factor])
    (by norm_num [glm_radians_factor]) (by norm_num [glm_radians_factor])]
  norm_num

/-- The field of view drawn with `u = 1/2` from the default range of 30 to
75 degrees: `0.9162978...`, the `float` next to 52.5 degrees in radians. -/
theorem fov_30_75_half :
    uniform_real_distribution (float.finite (4392265 / 8388608))
      (float.finite (5490331 / 4194304)) (float.finite (1 / 2))
      = float.finite (15372927 / 16777216) := by
  apply uniform_real_distribution_eval (d := 6588397 / 8388608) (p := 6588397 / 16777216)
  · exact round_to_float32_eq_grid 13176794 (-24) (by norm_num) (by norm_num) (by norm_num)
      (by norm_num)
  · exact round_to_float32_eq_grid 13176794 (-25) (by norm_num) (by norm_num) (by norm_num)
      (by norm_num)
  · exact round_to_float32_eq_grid 15372927 (-24) (by norm_num) (by norm_num) (by norm_num)
      (by norm_num)
  · exact abs_lt_of_nonneg (by norm_num) (by norm_num)
  · exact abs_lt_of_nonneg (by norm_num) (by norm_num)
  · exact abs_lt_of_nonneg (by norm_num) (by norm_num)

/-- The radius drawn with `u = i/8`, `i < 8`, from the default range of
1.25 to 2: `1.25 + 0.09375 i`, every operation being exact. -/
theorem radius_default_eighths (i : ℕ) (hi : i < 8) :
    uniform_real_distribution (float.finite (5 / 4)) (float.finite 2)
      (float.finite ((i : ℚ) / 8)) = float.finite (5 / 4 + (i : ℚ) / 8 * (3 / 4)) := by
  have hiq : (i : ℚ) < 8 := by exact_mod_cast hi
  have hi0 : (0 : ℚ) ≤ i := Nat.cast_nonneg i
  apply uniform_real_distribution_eval (d := 3 / 4) (p := (i : ℚ) / 8 * (3 / 4))
  · exact round_to_float32_eq_grid 3 (-2) (by norm_num) (by norm_num) (by norm_num)
      (by norm_num)
  · exact round_to_float32_eq_grid (3 * i) (-5) (by push_cast; norm_num; ring)
      (by push_cast; norm_num; ring) (by omega) (by norm_num)
  · exact round_to_float32_eq_grid (40 + 3 * i) (-5) (by push_cast; norm_num; ring)
      (by push_cast; norm_num; ring) (by omega) (by norm_num)
  · exact abs_lt_of_nonneg (by norm_num) (by norm_num)
  · apply abs_lt_of_nonneg (by positivity)
    have : (i : ℚ) / 8 * (3 / 4) < 1 := by linarith
    exact lt_trans this (by norm_num)
  · apply abs_lt_of_nonneg (by positivity)
    have : 5 / 4 + (i : ℚ) / 8 * (3 / 4) < 2 := by linarith
    exact lt_trans this (by norm_num)

/-- The hypotheses of `sampled_radius_and_fov_within_normalised_bounds` hold
for sample 3 of a run configured with both ranges in the wrong order
(`--min_r 2 --max_r 1.25 --min_fov 75 --max_fov 30`): the bounds come out as
`1.25 ≤ 2` and `30 ≤ 75`, the radian bounds are `0.52359879...` and
`1.30899691...`, the radius drawn with `u = 3/8` is `1.53125` and the field
of view drawn with `u = 1/2` is `0.91629785...`. -/
theorem sampled_radius_and_fov_within_normalised_bounds_witness :
    (min_radius (swapped_options 5) = float.finite (5 / 4) ∧
      max_radius (swapped_options 5) = float.finite 2 ∧
      min_fov (swapped_options 5) = float.finite 30 ∧
      max_fov (swapped_options 5) = float.finite 75 ∧
      radius (quiet_world 5) (swapped_options 5) 3 = float.finite (49 / 32) ∧
      glm_radians (min_fov (swapped_options 5)) = float.finite (4392265 / 8388608) ∧
      glm_radians (max_fov (swapped_options 5)) = float.finite (5490331 / 4194304) ∧
      fov (quiet_world 5) (swapped_options 5) 3 = float.finite (15372927 / 16777216)) ∧
    ∃ lo hi flo fhi : ℚ,
      (min_radius (swapped_options 5) = float.finite lo ∧
        max_radius (swapped_options 5) = float.finite hi ∧ lo ≤ hi ∧
        ((lo, hi) = (2, 5 / 4) ∨ (lo, hi) = (5 / 4, 2))) ∧
      (min_fov (swapped_options 5) = float.finite flo ∧
        max_fov (swapped_options 5) = float.finite fhi ∧ flo ≤ fhi ∧
        ((flo, fhi) = (75, 30) ∨ (flo, fhi) = (30, 75))) ∧
      (|round_to_float32 (hi - lo)| < (2 : ℚ) ^ (128 : ℤ) →
        ∃ r : ℚ, radius (quiet_world 5) (swapped_options 5) 3 = float.finite r ∧
          lo ≤ r ∧ r ≤ hi) ∧
      ((2 : ℚ) ^ (128 : ℤ) ≤ |round_to_float32 (hi - lo)| →
        radius (quiet_world 5) (swapped_options 5) 3 = float.nan ∨
          radius (quiet_world 5) (swapped_options 5) 3 = float.inf false) ∧
      (∃ rlo rhi f : ℚ,
        glm_radians (min_fov (swapped_options 5)) = float.finite rlo ∧
        glm_radians (max_fov (swapped_options 5)) = float.finite rhi ∧
        rlo = round_to_float32 (flo * glm_radians_factor) ∧
        rhi = round_to_float32 (fhi * glm_radians_factor) ∧
        fov (quiet_world 5) (swapped_options 5) 3 = float.finite f ∧ rlo ≤ f ∧ f ≤ rhi) ∧
      |glm_radians_factor - 1745329251994329576923690768489 / 100000000000000000000000000000000|
        < 1 / 1000000000 := by
  have hminr : min_radius (swapped_options 5) = float.finite (5 / 4) := by
    simp only [min_radius, swapped_options, default_options, auto_swap, float.lt]
    norm_num
  have hmaxr : max_radius (swapped_options 5) = float.finite 2 := by
    simp only [max_radius, swapped_options, default_options, auto_swap, float.lt]
    norm_num
  have hminf : min_fov (swapped_options 5) = float.finite 30 := by
    simp only [min_fov, swapped_options, default_options, auto_swap, float.lt]
    norm_num
  have hmaxf : max_fov (swapped_options 5) = float.finite 75 := by
    simp only [max_fov, swapped_options, default_options, auto_swap, float.lt]
    norm_num
  refine ⟨⟨hminr, hmaxr, hminf, hmaxf, ?_, ?_, ?_, ?_⟩, ?_⟩
  · unfold radius
    rw [hminr, hmaxr]
    have := radius_default_eighths 3 (by norm_num)
    norm_num at this
    simpa [quiet_world, good_world] using this
  · rw [hminf, glm_radians_30]
  · rw [hmaxf, glm_radians_75]
  · unfold fov
    rw [hminf, hmaxf, glm_radians_30, glm_radians_75]
    exact fov_30_75_half
  · exact sampled_radius_and_fov_within_normalised_bounds (quiet_world 5) (swapped_options 5) 3
      2 (5 / 4) 75 30 rfl rfl rfl rfl
      (is_float32_of_grid 1 1 (by norm_num) (by norm_num) (by norm_num) (by norm_num))
      (is_float32_of_grid 5 (-2) (by norm_num) (by norm_num) (by norm_num) (by norm_num))
      (is_float32_of_grid 75 0 (by norm_num) (by norm_num) (by norm_num) (by norm_num))
      (is_float32_of_grid 30 0 (by norm_num) (by norm_num) (by norm_num) (by norm_num))
      ⟨is_float32_of_grid 3 (-3) (by norm_num [quiet_world, good_world]) (by norm_num)
          (by norm_num) (by norm_num [quiet_world, good_world]),
        by norm_num [quiet_world, good_world], by norm_num [quiet_world, good_world]⟩
      ⟨is_float32_of_grid 1 (-1) (by norm_num [quiet_world, good_world]) (by norm_num)
          (by norm_num) (by norm_num [quiet_world, good_world]),
        by norm_num [quiet_world, good_world], by norm_num [quiet_world, good_world]⟩

/-! ### Stored texture coordinates -/

theorem round_to_float32_one : round_to_float32 1 = 1 := by
  have := round_to_float32_two_zpow 0 (by norm_num)
  simpa using this

theorem round_fraction_bounds {y : ℚ} (h0 : 0 ≤ y) (h1 : y < 1) :
    0 ≤ round_to_float32 y ∧ round_to_float32 y ≤ 1 := by
  refine ⟨round_to_float32_nonneg h0, ?_⟩
  have := round_to_float32_mono (le_of_lt h1)
  rwa [round_to_float32_one] at this

theorem round_fraction_lt_one {y : ℚ} (h0 : 0 ≤ y) (h1 : y < 1 - (2 : ℚ) ^ (-25 : ℤ)) :
    round_to_float32 y < 1 := by
  have hc : (2 : ℚ) ^ (-25 : ℤ) = 1 / 33554432 := by norm_num
  rw [hc] at h1
  rcases lt_or_le y (1 / 2) with hlt | hge
  · have h := round_to_float32_mono (le_of_lt hlt)
    have h2 : round_to_float32 (1 / 2) = 1 / 2 :=
      round_to_float32_eq_grid 1 (-1) (by norm_num) (by norm_num) (by norm_num) (by norm_num)
    rw [h2] at h
    linarith
  · have hb : binade y = -1 := binade_eq_of_bounds (-1) (by norm_num) (by norm_num; linarith)
      (by norm_num; linarith)
    have hulp : ulp y = 1 / 16777216 := by unfold ulp; rw [hb]; norm_num
    rw [round_to_float32_of_nonneg h0]
    unfold round_magnitude
    rw [hulp]
    have hlt : round_half_even (y / (1 / 16777216)) < 16777216 := by
      apply round_half_even_lt_of_lt (div_nonneg h0 (by norm_num))
      rw [div_lt_iff₀ (by norm_num)]
      push_cast
      linarith
    have hle : (round_half_even (y / (1 / 16777216)) : ℚ) ≤ 16777215 := by
      have : round_half_even (y / (1 / 16777216)) ≤ 16777215 := by omega
      exact_mod_cast this
    linarith

theorem round_half_even_of_upper_half {x : ℚ} (m : ℕ) (hodd : m % 2 = 1)
    (h1 : (m : ℚ) + 1 / 2 ≤ x) (h2 : x < (m : ℚ) + 1) : round_half_even x = m + 1 := by
  have hfl : ⌊x⌋ = (m : ℤ) := by
    apply Int.floor_eq_iff.mpr
    constructor
    · push_cast
      linarith
    · push_cast
      linarith
  unfold round_half_even
  simp only [hfl, Int.toNat_ofNat]
  have : x - (m : ℚ) > 1 / 2 ∨ (x - (m : ℚ) = 1 / 2 ∧ m % 2 = 1) := by
    rcases lt_or_eq_of_le h1 with h | h
    · left
      linarith
    · right
      exact ⟨by linarith, hodd⟩
  rw [if_pos this]

theorem round_fraction_eq_one {y : ℚ} (h0 : 1 - (2 : ℚ) ^ (-25 : ℤ) ≤ y) (h1 : y < 1) :
    round_to_float32 y = 1 := by
  have hc : (2 : ℚ) ^ (-25 : ℤ) = 1 / 33554432 := by norm_num
  rw [hc] at h0
  have hy0 : 0 ≤ y := by linarith
  have hb : binade y = -1 := binade_eq_of_bounds (-1) (by norm_num) (by norm_num; linarith)
    (by norm_num; linarith)
  have hulp : ulp y = 1 / 16777216 := by unfold ulp; rw [hb]; norm_num
  rw [round_to_float32_of_nonneg hy0]
  unfold round_magnitude
  rw [hulp, round_half_even_of_upper_half 16777215 (by norm_num)]
  · norm_num
  · rw [le_div_iff₀ (by norm_num)]
    push_cast
    linarith
  · rw [div_lt_iff₀ (by norm_num)]
    push_cast
    linarith

/-- The value `glm::fract` returns for a finite `x`: the exact fractional
part `x - floor x`, rounded to `float`. -/
theorem fract_finite (x : ℚ) :
    fract (float.finite x) = float.finite (round_to_float32 (x - (⌊x⌋ : ℚ))) := by
  simp only [fract, float.floor, float.sub, float.neg, float.add]
  rw [← sub_eq_add_neg]
  apply float_round_of_lt
  have h0 : 0 ≤ x - (⌊x⌋ : ℚ) := sub_nonneg.mpr (Int.floor_le x)
  have h1 : x - (⌊x⌋ : ℚ) < 1 := by
    have := Int.lt_floor_add_one x
    linarith
  have hb := round_fraction_bounds h0 h1
  rw [abs_of_nonneg hb.1]
  exact lt_of_le_of_lt hb.2 (by norm_num)

/-- C6, as amended. For every vertex index `i` of the first mesh of a scene
that imports, `load_mesh` stores a vertex whose two UV components are, when
the mesh has texture coordinates with finite components `x`, the `float`
nearest to the fractional part `x - floor x`: equal to it when it is a
`float` (as for 1.75, stored as 0.75), a value of `[0, 1]` in every case,
below 1 when the fractional part is below `1 - 2^-25` and exactly 1
otherwise; and `(0, 0)` when the mesh has no texture coordinates. -/
theorem stored_uv_is_fractional_part (s : aiScene) (transform : aiMatrix4x4) (mesh : aiMesh)
    (rest : List aiMesh) (error_string : String) (filename diffuse : List Char) (i : Nat)
    (hinc : s.incomplete = false) (hroot : s.mRootNode = some transform)
    (hmesh : s.mMeshes = mesh :: rest) (hi : i < mesh.mVertices.length) :
    ∃ v, (load_mesh (some s) error_string filename diffuse).vertices[i]? = some v ∧
      (∀ tc c x y, mesh.mTextureCoords0 = some tc → tc[i]? = some c →
        c.x = float.finite x → c.y = float.finite y →
        ∃ sx sy : ℚ, v.uv = ⟨float.finite sx, float.finite sy⟩ ∧
          (sx = round_to_float32 (x - (⌊x⌋ : ℚ)) ∧ sy = round_to_float32 (y - (⌊y⌋ : ℚ))) ∧
          (round_to_float32 (x - (⌊x⌋ : ℚ)) = x - (⌊x⌋ : ℚ) → sx = x - (⌊x⌋ : ℚ)) ∧
          (round_to_float32 (y - (⌊y⌋ : ℚ)) = y - (⌊y⌋ : ℚ) → sy = y - (⌊y⌋ : ℚ)) ∧
          (0 ≤ sx ∧ sx ≤ 1) ∧ (0 ≤ sy ∧ sy ≤ 1) ∧
          (x - (⌊x⌋ : ℚ) < 1 - (2 : ℚ) ^ (-25 : ℤ) → sx < 1) ∧
          (y - (⌊y⌋ : ℚ) < 1 - (2 : ℚ) ^ (-25 : ℤ) → sy < 1) ∧
          (1 - (2 : ℚ) ^ (-25 : ℤ) ≤ x - (⌊x⌋ : ℚ) → sx = 1) ∧
          (1 - (2 : ℚ) ^ (-25 : ℤ) ≤ y - (⌊y⌋ : ℚ) → sy = 1)) ∧
      (mesh.mTextureCoords0 = none → v.uv = ⟨float.finite 0, float.finite 0⟩) := by
  have hpos : 0 < mesh.mVertices.length := Nat.lt_of_le_of_lt (Nat.zero_le i) hi
  refine ⟨load_vertex transform mesh i (mesh.mVertices[i]), ?_, ?_, ?_⟩
  · unfold load_mesh
    simp only [hinc, hroot, hmesh]
    cases hd : mesh.material.diffuse <;>
      simp [List.getElem?_enum, List.getElem?_eq_getElem hi]
  · intro tc c x y htc hc hx hy
    have hx0 : 0 ≤ x - (⌊x⌋ : ℚ) := sub_nonneg.mpr (Int.floor_le x)
    have hx1 : x - (⌊x⌋ : ℚ) < 1 := by
      have := Int.lt_floor_add_one x
      linarith
    have hy0 : 0 ≤ y - (⌊y⌋ : ℚ) := sub_nonneg.mpr (Int.floor_le y)
    have hy1 : y - (⌊y⌋ : ℚ) < 1 := by
      have := Int.lt_floor_add_one y
      linarith
    refine ⟨round_to_float32 (x - (⌊x⌋ : ℚ)), round_to_float32 (y - (⌊y⌋ : ℚ)), ?_, ⟨rfl, rfl⟩,
      fun h => h, fun h => h, round_fraction_bounds hx0 hx1, round_fraction_bounds hy0 hy1,
      round_fraction_lt_one hx0, round_fraction_lt_one hy0,
      fun h => round_fraction_eq_one h hx1, fun h => round_fraction_eq_one h hy1⟩
    simp [load_vertex, load_uv, aiMesh.HasTextureCoords0, aiMesh.texCoord, htc, hc, hpos,
      aiVector3D.component, hx, hy, fract_finite]
  · intro hnone
    simp [load_vertex, load_uv, aiMesh.HasTextureCoords0, hnone]

/-- The claim C6 fails on a mesh whose first texture coordinate is
`(-2^-30, -2^-25)`: both components are finite `float` values with
fractional parts `1 - 2^-30` and `1 - 2^-25`, below 1, and both are stored
as exactly 1, which is neither the fractional part nor a value below 1. -/
theorem stored_uv_can_be_one :
    (is_float32 (-1 / 1073741824) ∧ is_float32 (-1 / 33554432)) ∧
    ((-1 / 1073741824 : ℚ) - (⌊(-1 / 1073741824 : ℚ)⌋ : ℚ) = 1 - 1 / 1073741824 ∧
      (-1 / 33554432 : ℚ) - (⌊(-1 / 33554432 : ℚ)⌋ : ℚ) = 1 - 1 / 33554432) ∧
    ((load_mesh (some near_integer_scene) "" "foo.fbx".toList []).vertices[0]?).map
        (fun v => v.uv) = some ⟨float.finite 1, float.finite 1⟩ := by
  have hf1 : ⌊(-1 / 1073741824 : ℚ)⌋ = -1 :=
    Int.floor_eq_iff.mpr ⟨by norm_num, by norm_num⟩
  have hf2 : ⌊(-1 / 33554432 : ℚ)⌋ = -1 :=
    Int.floor_eq_iff.mpr ⟨by norm_num, by norm_num⟩
  have h1 : fract (float.finite (-1 / 1073741824)) = float.finite 1 := by
    rw [fract_finite, hf1, round_fraction_eq_one (by norm_num) (by norm_num)]
  have h2 : fract (float.finite (-1 / 33554432)) = float.finite 1 := by
    rw [fract_finite, hf2, round_fraction_eq_one (by norm_num) (by norm_num)]
  refine ⟨⟨?_, ?_⟩, ⟨?_, ?_⟩, ?_⟩
  · have := is_float32_neg
      (is_float32_of_grid (q := 1 / 1073741824) 1 (-30) (by norm_num) (by norm_num)
        (by norm_num) (by norm_num))
    norm_num at this ⊢
    exact this
  · have := is_float32_neg
      (is_float32_of_grid (q := 1 / 33554432) 1 (-25) (by norm_num) (by norm_num)
        (by norm_num) (by norm_num))
    norm_num at this ⊢
    exact this
  · rw [hf1]
    norm_num
  · rw [hf2]
    norm_num
  · simp [load_mesh, near_integer_scene, near_integer_triangle, triangle, point, List.enum,
      List.enumFrom, load_vertex, load_uv, aiMesh.HasTextureCoords0, aiMesh.texCoord,
      aiVector3D.component, h1, h2]

/-- The hypotheses of `stored_uv_is_fractional_part` hold for vertex 0 of
the triangle scene, whose texture coordinate `(1.75, -0.25)` is stored as
`(0.75, 0.75)`; the three stored coordinates of the scene are `(0.75, 0.75)`,
`(0, 0)` and `(0.5, 0.25)`. -/
theorem stored_uv_is_fractional_part_witness :
    ((load_mesh (some triangle_scene) "" "foo.fbx".toList []).vertices.map (fun v => v.uv)
        = [⟨float.finite (3 / 4), float.finite (3 / 4)⟩, ⟨float.finite 0, float.finite 0⟩,
            ⟨float.finite (1 / 2), float.finite (1 / 4)⟩]) ∧
    ∃ v, (load_mesh (some triangle_scene) "" "foo.fbx".toList []).vertices[0]? = some v ∧
      (∀ tc c x y, triangle.mTextureCoords0 = some tc → tc[0]? = some c →
        c.x = float.finite x → c.y = float.finite y →
        ∃ sx sy : ℚ, v.uv = ⟨float.finite sx, float.finite sy⟩ ∧
          (sx = round_to_float32 (x - (⌊x⌋ : ℚ)) ∧ sy = round_to_float32 (y - (⌊y⌋ : ℚ))) ∧
          (round_to_float32 (x - (⌊x⌋ : ℚ)) = x - (⌊x⌋ : ℚ) → sx = x - (⌊x⌋ : ℚ)) ∧
          (round_to_float32 (y - (⌊y⌋ : ℚ)) = y - (⌊y⌋ : ℚ) → sy = y - (⌊y⌋ : ℚ)) ∧
          (0 ≤ sx ∧ sx ≤ 1) ∧ (0 ≤ sy ∧ sy ≤ 1) ∧
          (x - (⌊x⌋ : ℚ) < 1 - (2 : ℚ) ^ (-25 : ℤ) → sx < 1) ∧
          (y - (⌊y⌋ : ℚ) < 1 - (2 : ℚ) ^ (-25 : ℤ) → sy < 1) ∧
          (1 - (2 : ℚ) ^ (-25 : ℤ) ≤ x - (⌊x⌋ : ℚ) → sx = 1) ∧
          (1 - (2 : ℚ) ^ (-25 : ℤ) ≤ y - (⌊y⌋ : ℚ) → sy = 1)) ∧
      (triangle.mTextureCoords0 = none → v.uv = ⟨float.finite 0, float.finite 0⟩) := by
  have ev : ∀ (x : ℚ) (k : ℤ) (m : ℕ) (z : ℤ), ⌊x⌋ = k → x - (k : ℚ) = (m : ℚ) * (2 : ℚ) ^ z →
      m ≤ 16777216 → -149 ≤ z → fract (float.finite x) = float.finite (x - (k : ℚ)) := by
    intro x k m z hk hg hm hz
    rw [fract_finite, hk, round_to_float32_of_grid m z hg hm hz]
  have h1 : fract (float.finite (7 / 4)) = float.finite (3 / 4) := by
    rw [ev (7 / 4) 1 3 (-2) (Int.floor_eq_iff.mpr ⟨by norm_num, by norm_num⟩) (by norm_num)
      (by norm_num) (by norm_num)]
    norm_num
  have h2 : fract (float.finite (-1 / 4)) = float.finite (3 / 4) := by
    rw [ev (-1 / 4) (-1) 3 (-2) (Int.floor_eq_iff.mpr ⟨by norm_num, by norm_num⟩)
      (by norm_num) (by norm_num) (by norm_num)]
    norm_num
  have h3 : fract (float.finite (5 / 2)) = float.finite (1 / 2) := by
    rw [ev (5 / 2) 2 1 (-1) (Int.floor_eq_iff.mpr ⟨by norm_num, by norm_num⟩) (by norm_num)
      (by norm_num) (by norm_num)]
    norm_num
  have h4 : fract (float.finite (9 / 4)) = float.finite (1 / 4) := by
    rw [ev (9 / 4) 2 1 (-2) (Int.floor_eq_iff.mpr ⟨by norm_num, by norm_num⟩) (by norm_num)
      (by norm_num) (by norm_num)]
    norm_num
  have h5 : fract (float.finite 0) = float.finite 0 := by
    rw [ev 0 0 0 0 (Int.floor_eq_iff.mpr ⟨by norm_num, by norm_num⟩) (by norm_num)
      (by norm_num) (by norm_num)]
    norm_num
  have h6 : fract (float.finite 1) = float.finite 0 := by
    rw [ev 1 1 0 0 (Int.floor_eq_iff.mpr ⟨by norm_num, by norm_num⟩) (by norm_num)
      (by norm_num) (by norm_num)]
    norm_num
  refine ⟨?_, stored_uv_is_fractional_part triangle_scene identity_transform triangle [] ""
      "foo.fbx".toList [] 0 rfl rfl rfl (by decide)⟩
  simp [load_mesh, triangle_scene, triangle, point, List.enum, List.enumFrom, load_vertex,
    load_uv, aiMesh.HasTextureCoords0, aiMesh.texCoord, aiVector3D.component, h1, h2, h3, h4,
    h5, h6]

/-! ### Naming -/

theorem std_replace_eq_map (old_value new_value : Char) (s : List Char) :
    std_replace old_value new_value s
      = s.map (fun c => if c = old_value then new_value else c) := by
  induction s with
  | nil => rfl
  | cons c rest ih => simp [std_replace, ih]

/-- C2. The basename built in the sample loop is the string
`"S" ++ to_string(i) ++ "F" ++ to_string(fov) ++ "R" ++ to_string(radius)`
with every `.` replaced by `_` and every other character unchanged: it
equals the label of the specification, has the same length as the unreplaced
string, agrees with it position by position up to the replacement, and
contains no `.`. -/
theorem basename_is_label_with_dots_replaced {α : Type} (to_string_float : α → List Char)
    (i : Nat) (fov radius : α) :
    basename to_string_float i fov radius = spec_label to_string_float i fov radius ∧
    (basename to_string_float i fov radius).length
      = ("S".toList ++ to_string_unsigned i ++ "F".toList ++ to_string_float fov
          ++ "R".toList ++ to_string_float radius).length ∧
    (∀ k : Nat, (basename to_string_float i fov radius)[k]?
      = (("S".toList ++ to_string_unsigned i ++ "F".toList ++ to_string_float fov
          ++ "R".toList ++ to_string_float radius)[k]?).map
            (fun c => if c = '.' then '_' else c)) ∧
    '.' ∉ basename to_string_float i fov radius := by
  have h : basename to_string_float i fov radius = spec_label to_string_float i fov radius := by
    simp [basename, base_label, spec_label, std_replace_eq_map]
  refine ⟨h, ?_, ?_, ?_⟩
  · rw [h, spec_label, List.length_map]
  · intro k
    rw [h, spec_label, List.getElem?_map]
  · rw [h, spec_label]
    intro hmem
    obtain ⟨c, -, hc⟩ := List.mem_map.mp hmem
    by_cases hdot : c = '.'
    · rw [if_pos hdot] at hc
      exact absurd hc (by decide)
    · rw [if_neg hdot] at hc
      exact hdot hc

theorem digitChar_isDigit (d : Nat) (h : d < 10) : (Nat.digitChar d).isDigit = true := by
  interval_cases d <;> decide

theorem digitChar_value (d : Nat) (h : d < 10) : (Nat.digitChar d).toNat - 48 = d := by
  interval_cases d <;> decide

theorem toDigitsCore_append (fuel : Nat) : ∀ (n : Nat) (ds : List Char),
    Nat.toDigitsCore 10 fuel n ds = Nat.toDigitsCore 10 fuel n [] ++ ds := by
  induction fuel with
  | zero => intro n ds; simp [Nat.toDigitsCore]
  | succ fuel ih =>
    intro n ds
    simp only [Nat.toDigitsCore]
    split_ifs with h
    · simp
    · rw [ih (n / 10) (Nat.digitChar (n % 10) :: ds), ih (n / 10) [Nat.digitChar (n % 10)]]
      simp

theorem toDigitsCore_isDigit (fuel : Nat) : ∀ (n : Nat),
    ∀ c ∈ Nat.toDigitsCore 10 fuel n [], c.isDigit = true := by
  induction fuel with
  | zero => intro n c hc; simp [Nat.toDigitsCore] at hc
  | succ fuel ih =>
    intro n c hc
    simp only [Nat.toDigitsCore] at hc
    split_ifs at hc with h
    · simp at hc
      rw [hc]
      exact digitChar_isDigit _ (Nat.mod_lt _ (by norm_num))
    · rw [toDigitsCore_append] at hc
      rcases List.mem_append.mp hc with h1 | h1
      · exact ih _ c h1
      · simp at h1
        rw [h1]
        exact digitChar_isDigit _ (Nat.mod_lt _ (by norm_num))

theorem decimal_value_append_singleton (s : List Char) (c : Char) :
    decimal_value (s ++ [c]) = 10 * decimal_value s + (c.toNat - 48) := by
  simp [decimal_value, List.foldl_append]

theorem decimal_value_toDigitsCore (fuel : Nat) : ∀ (n : Nat), n < fuel →
    decimal_value (Nat.toDigitsCore 10 fuel n []) = n := by
  induction fuel with
  | zero => intro n h; omega
  | succ fuel ih =>
    intro n hn
    simp only [Nat.toDigitsCore]
    split_ifs with h
    · have : n < 10 := by omega
      simp [decimal_value, Nat.mod_eq_of_lt this, digitChar_value n this]
    · rw [toDigitsCore_append, decimal_value_append_singleton, ih (n / 10) (by omega),
        digitChar_value _ (Nat.mod_lt n (by norm_num : 10 > 0))]
      omega

theorem to_string_unsigned_injective (i j : Nat)
    (h : to_string_unsigned i = to_string_unsigned j) : i = j := by
  have hi := decimal_value_toDigitsCore (i + 1) i (Nat.lt_succ_self i)
  have hj := decimal_value_toDigitsCore (j + 1) j (Nat.lt_succ_self j)
  unfold to_string_unsigned Nat.toDigits at h
  rw [h] at hi
  omega

theorem to_string_unsigned_isDigit (i : Nat) :
    ∀ c ∈ to_string_unsigned i, c.isDigit = true :=
  toDigitsCore_isDigit (i + 1) i

theorem digits_before_separator (sep : Char) (hsep : sep.isDigit = false) :
    ∀ (a b x y : List Char), (∀ c ∈ a, c.isDigit = true) → (∀ c ∈ b, c.isDigit = true) →
      a ++ sep :: x = b ++ sep :: y → a = b := by
  intro a
  induction a with
  | nil =>
    intro b x y _ hb h
    cases b with
    | nil => rfl
    | cons c b =>
      simp at h
      have := hb c (by simp)
      rw [← h.1, hsep] at this
      cases this
  | cons c a ih =>
    intro b x y ha hb h
    cases b with
    | nil =>
      simp at h
      have := ha c (by simp)
      rw [h.1, hsep] at this
      cases this
    | cons d b =>
      simp at h
      rw [h.1, ih b x y (fun c hc => ha c (by simp [hc])) (fun c hc => hb c (by simp [hc])) h.2]

theorem basename_shape {α : Type} (to_string_float : α → List Char) (i : Nat)
    (fov radius : α) :
    ∃ tail, basename to_string_float i fov radius
      = 'S' :: (to_string_unsigned i ++ 'F' :: tail) := by
  refine ⟨(to_string_float fov ++ 'R' :: to_string_float radius).map
    (fun c => if c = '.' then '_' else c), ?_⟩
  have hd : (to_string_unsigned i).map (fun c => if c = '.' then '_' else c)
      = to_string_unsigned i := by
    conv_rhs => rw [← List.map_id (to_string_unsigned i)]
    apply List.map_congr_left
    intro c hc
    have := to_string_unsigned_isDigit i c hc
    by_cases hdot : c = '.'
    · rw [hdot] at this
      exact absurd this (by decide)
    · simp [hdot]
  simp [basename, base_label, std_replace_eq_map, hd]

theorem color_path_ne_uv_path (out a b : List Char) : color_path out a ≠ uv_path out b := by
  intro h
  have h2 := congrArg List.reverse h
  simp [color_path, uv_path] at h2

theorem basename_ne_of_index_ne {α : Type} (to_string_float : α → List Char) (i j : Nat)
    (f1 r1 f2 r2 : α) (hij : i ≠ j) :
    basename to_string_float i f1 r1 ≠ basename to_string_float j f2 r2 := by
  intro h
  obtain ⟨t1, h1⟩ := basename_shape to_string_float i f1 r1
  obtain ⟨t2, h2⟩ := basename_shape to_string_float j f2 r2
  rw [h1, h2] at h
  have h3 := List.tail_eq_of_cons_eq h
  exact hij (to_string_unsigned_injective i j
    (digits_before_separator 'F' (by decide) _ _ t1 t2 (to_string_unsigned_isDigit i)
      (to_string_unsigned_isDigit j) h3))

/-- C10. For sample indices `i ≠ j` and any sampled values, the basenames
of sample `i` and of sample `j` are different strings, and so are all of
their output paths in one output directory: no file of one sample has the
name of a file of another, even when both draw the same field of view and
radius. -/
theorem distinct_samples_have_distinct_basenames {α : Type}
    (to_string_float : α → List Char) (out : List Char) (i j : Nat) (f1 r1 f2 r2 : α)
    (hij : i ≠ j) :
    basename to_string_float i f1 r1 ≠ basename to_string_float j f2 r2 ∧
    color_path out (basename to_string_float i f1 r1)
      ≠ color_path out (basename to_string_float j f2 r2) ∧
    uv_path out (basename to_string_float i f1 r1)
      ≠ uv_path out (basename to_string_float j f2 r2) ∧
    color_path out (basename to_string_float i f1 r1)
      ≠ uv_path out (basename to_string_float j f2 r2) ∧
    uv_path out (basename to_string_float i f1 r1)
      ≠ color_path out (basename to_string_float j f2 r2) := by
  have hbase := basename_ne_of_index_ne to_string_float i j f1 r1 f2 r2 hij
  refine ⟨hbase, ?_, ?_, color_path_ne_uv_path _ _ _, fun h => color_path_ne_uv_path _ _ _ h.symm⟩
  · intro h
    apply hbase
    simpa [color_path] using h
  · intro h
    apply hbase
    simpa [uv_path] using h

/-- The hypothesis of `distinct_samples_have_distinct_basenames` holds for
samples 1 and 11 drawing the same field of view and radius. -/
theorem distinct_samples_have_distinct_basenames_witness :
    (1 : Nat) ≠ 11 ∧
    (basename printf_f 1 (float.finite (1 / 2)) (float.finite (3 / 2))
      ≠ basename printf_f 11 (float.finite (1 / 2)) (float.finite (3 / 2)) ∧
    color_path "out".toList (basename printf_f 1 (float.finite (1 / 2)) (float.finite (3 / 2)))
      ≠ color_path "out".toList
          (basename printf_f 11 (float.finite (1 / 2)) (float.finite (3 / 2))) ∧
    uv_path "out".toList (basename printf_f 1 (float.finite (1 / 2)) (float.finite (3 / 2)))
      ≠ uv_path "out".toList
          (basename printf_f 11 (float.finite (1 / 2)) (float.finite (3 / 2))) ∧
    color_path "out".toList (basename printf_f 1 (float.finite (1 / 2)) (float.finite (3 / 2)))
      ≠ uv_path "out".toList
          (basename printf_f 11 (float.finite (1 / 2)) (float.finite (3 / 2))) ∧
    uv_path "out".toList (basename printf_f 1 (float.finite (1 / 2)) (float.finite (3 / 2)))
      ≠ color_path "out".toList
          (basename printf_f 11 (float.finite (1 / 2)) (float.finite (3 / 2)))) :=
  ⟨by decide,
    distinct_samples_have_distinct_basenames printf_f "out".toList 1 11
      (float.finite (1 / 2)) (float.finite (3 / 2)) (float.finite (1 / 2))
      (float.finite (3 / 2)) (by decide)⟩

theorem sample_files_nodup (W : World) (o : Options) (i : Nat) :
    (sample_files W o i).Nodup := by
  simp only [sample_files, List.nodup_cons, List.mem_singleton, List.not_mem_nil,
    not_false_eq_true, List.nodup_nil, and_true]
  exact color_path_ne_uv_path _ _ _

theorem sample_files_disjoint (W : World) (o : Options) (i j : Nat) (hij : i ≠ j) :
    List.Disjoint (sample_files W o i) (sample_files W o j) := by
  have hb : base W o i ≠ base W o j := basename_ne_of_index_ne _ _ _ _ _ _ _ hij
  intro f hfi hfj
  simp only [sample_files, List.mem_cons, List.mem_singleton, List.not_mem_nil, or_false] at hfi hfj
  rcases hfi with rfl | rfl <;> rcases hfj with h | h
  · exact hb (by simpa [color_path] using h)
  · exact color_path_ne_uv_path _ _ _ h
  · exact color_path_ne_uv_path _ _ _ h.symm
  · exact hb (by simpa [uv_path] using h)

theorem flatMap_sample_files_nodup (W : World) (o : Options) (l : List Nat) (hl : l.Nodup) :
    (l.flatMap (sample_files W o)).Nodup := by
  rw [List.nodup_flatMap]
  refine ⟨fun i _ => sample_files_nodup W o i, ?_⟩
  exact List.Pairwise.imp (fun hij => sample_files_disjoint W o _ _ hij) hl

/-! ### Camera matrices -/

theorem written_files_append (a b : List Effect) :
    written_files (a ++ b) = written_files a ++ written_files b := by
  induction a with
  | nil => rfl
  | cons e a ih => cases e <;> simp [written_files, ih]

theorem written_files_of_no_write (t : List Effect) (h : ∀ e ∈ t, e.is_write = false) :
    written_files t = [] := by
  induction t with
  | nil => rfl
  | cons e t ih =>
    have he := h e (by simp)
    have ht := ih (fun e' he' => h e' (by simp [he']))
    cases e <;> simp_all [written_files, Effect.is_write]

theorem written_files_flatMap_iteration_effects (W : World) (o : Options) (m : Nat)
    (l : List Nat) :
    written_files (l.flatMap (iteration_effects W o m)) = l.flatMap (sample_files W o) := by
  induction l with
  | nil => rfl
  | cons i l ih =>
    simp only [List.flatMap_cons, written_files_append, ih]
    rfl

theorem filter_is_write_flatMap_iteration_effects (W : World) (o : Options) (m : Nat)
    (l : List Nat) :
    (l.flatMap (iteration_effects W o m)).filter Effect.is_write
      = l.flatMap (encoder_calls W o) := by
  induction l with
  | nil => rfl
  | cons i l ih =>
    simp only [List.flatMap_cons, List.filter_append, ih]
    rfl

theorem stop_raised_succ_of_body (W : World) (i : Nat) (sc : Bool)
    (h : sc = stop_raised W i) :
    ((if W.key_escape i then true else sc) || W.close_event i) = stop_raised W (i + 1) := by
  subst h
  simp only [stop_raised]
  cases stop_raised W i <;> cases W.key_escape i <;> cases W.close_event i <;> rfl

theorem loop_body_of_returns (W : World) (o : Options) (m : Nat) (i : Nat) (sc : Bool)
    (t : List Effect) (hsc : sc = stop_raised W i) (hdir : W.create_directory i = none) :
    loop_body W o m ⟨i, sc, t⟩
      = BodyResult.completed ⟨i + 1, stop_raised W (i + 1), t ++ iteration_effects W o m i⟩ := by
  simp only [loop_body, hdir, stop_raised_succ_of_body W i sc hsc, iteration_effects,
    List.append_assoc, List.cons_append, List.nil_append]

theorem loop_body_of_throws (W : World) (o : Options) (m : Nat) (i : Nat) (sc : Bool)
    (t : List Effect) (what : String) (hdir : W.create_directory i = some what) :
    loop_body W o m ⟨i, sc, t⟩
      = BodyResult.threw what
          (t ++ [Effect.glDrawArrays m, Effect.create_directory o.output]) := by
  simp only [loop_body, hdir, List.append_assoc, List.cons_append, List.nil_append]

/-- The run of the loop from a state whose close flag reflects the signals
raised so far: with fuel beyond the iterations left, the loop returns. It
runs the iterations `i .. k-1` to their end, for some `k` with `i ≤ k ≤ n`,
before each of which no signal was raised and in each of which
`create_directory` returned. Then either the loop condition fails, at `n`
or on a raised signal, or iteration `k` starts and `create_directory`
throws in it. -/
theorem sample_loop_run (W : World) (o : Options) (m : Nat) :
    ∀ (fuel : Nat) (st : LoopState), st.should_close = stop_raised W st.i → st.i ≤ o.n →
      o.n - st.i < fuel →
      ∃ k, st.i ≤ k ∧ k ≤ o.n ∧
        (∀ j, st.i ≤ j → j < k → stop_raised W j = false ∧ W.create_directory j = none) ∧
        (((k < o.n → stop_raised W k = true) ∧
            sample_loop W o m fuel st
              = some (BodyResult.completed ⟨k, stop_raised W k,
                  st.trace ++ (List.range' st.i (k - st.i)).flatMap (iteration_effects W o m)⟩)) ∨
          (k < o.n ∧ stop_raised W k = false ∧ ∃ what, W.create_directory k = some what ∧
            sample_loop W o m fuel st
              = some (BodyResult.threw what
                  (st.trace ++ (List.range' st.i (k - st.i)).flatMap (iteration_effects W o m)
                    ++ [Effect.glDrawArrays m, Effect.create_directory o.output])))) := by
  intro fuel
  induction fuel with
  | zero => intro st _ _ h; omega
  | succ fuel ih =>
    intro st hsc hle hfuel
    obtain ⟨i, sc, t⟩ := st
    dsimp only at hsc hle hfuel
    by_cases hcond : (decide (i < o.n) && !sc) = true
    · have hlt : i < o.n := by
        simp only [Bool.and_eq_true, decide_eq_true_eq] at hcond
        exact hcond.1
      have hsc0 : sc = false := by
        simp only [Bool.and_eq_true, Bool.not_eq_true', decide_eq_true_eq] at hcond
        exact hcond.2
      have hstop0 : stop_raised W i = false := by rw [← hsc]; exact hsc0
      cases hdir : W.create_directory i with
      | some what =>
        refine ⟨i, le_refl i, hle, fun j hj1 hj2 => by dsimp only at hj1; omega, Or.inr ?_⟩
        refine ⟨hlt, hstop0, what, hdir, ?_⟩
        simp only [sample_loop, hcond, if_true, loop_body_of_throws W o m i sc t what hdir,
          Nat.sub_self, List.range'_zero, List.flatMap_nil, List.append_nil]
      | none =>
        obtain ⟨k, hk1, hk2, hquiet, hend⟩ :=
          ih ⟨i + 1, stop_raised W (i + 1), t ++ iteration_effects W o m i⟩ rfl
            (by dsimp only; omega) (by dsimp only; omega)
        dsimp only at hk1 hquiet hend
        have hr : List.range' i (k - i) = i :: List.range' (i + 1) (k - (i + 1)) := by
          have : k - i = (k - (i + 1)) + 1 := by omega
          rw [this, List.range'_succ]
        refine ⟨k, by dsimp only; omega, hk2, ?_, ?_⟩
        · intro j hj1 hj2
          dsimp only at hj1
          by_cases hji : j = i
          · subst hji
            exact ⟨hstop0, hdir⟩
          · exact hquiet j (by omega) hj2
        · rcases hend with ⟨hstop, hrun⟩ | ⟨hkn, hks, what, hwhat, hrun⟩
          · left
            refine ⟨hstop, ?_⟩
            simp only [sample_loop, hcond, if_true, loop_body_of_returns W o m i sc t hsc hdir]
            rw [hrun]
            simp only [hr, List.flatMap_cons, List.append_assoc]
          · right
            refine ⟨hkn, hks, what, hwhat, ?_⟩
            simp only [sample_loop, hcond, if_true, loop_body_of_returns W o m i sc t hsc hdir]
            rw [hrun]
            simp only [hr, List.flatMap_cons, List.append_assoc]
    · refine ⟨i, le_refl i, hle, fun j hj1 hj2 => by dsimp only at hj1; omega, Or.inl ⟨?_, ?_⟩⟩
      · intro hlt
        rw [← hsc]
        simp only [Bool.and_eq_true, Bool.not_eq_true', decide_eq_true_eq, not_and,
          Bool.not_eq_false] at hcond
        exact hcond hlt
      · simp only [sample_loop, hcond]
        simp [hsc]

theorem setup_effects_no_write (W : World) (o : Options) (tw th : Int) :
    ∀ e ∈ setup_effects W o tw th, e.is_write = false := by
  intro e he
  simp only [setup_effects, List.mem_append, List.mem_cons, List.mem_singleton,
    List.not_mem_nil, or_false] at he
  rcases he with he | he
  · obtain ⟨x, -, rfl⟩ := List.mem_map.mp he
    rfl
  · rcases he with he | he | he | he | he | he | he | he | he | he | he | he | he | he | he | he |
      he | he <;> subst he <;> rfl

/-- When the setup succeeds, `main` reaches the sample loop with `i = 0`,
the window's close flag and the effects of the setup, and returns
`EXIT_SUCCESS` when the loop ends. -/
theorem main_of_setup_succeeds (W : World) (o : Options) (h : setup_succeeds W o) (fuel : Nat) :
    ∃ tw th : Int,
      main fuel W =
        match sample_loop W o (mesh_size W o) fuel
          ⟨0, W.window_should_close, setup_effects W o tw th⟩ with
        | none => none
        | some (BodyResult.completed st) =>
          some ⟨ExitStatus.EXIT_SUCCESS, st.trace ++ [Effect.glfwTerminate]⟩
        | some (BodyResult.threw what trace) =>
          some ⟨ExitStatus.EXIT_SUCCESS, trace ++ [Effect.cout ("Exception: " ++ what)]⟩ := by
  obtain ⟨hp, hd, h1, h2, h3, h4, h5, h6, h7, h8⟩ := h
  obtain ⟨⟨tw, th⟩, hl⟩ := Option.ne_none_iff_exists'.mp h4
  have hd' : (load_mesh W.ReadFile W.GetErrorString o.input []).diffuse_texture.isEmpty = false := by
    cases hdt : (load_mesh W.ReadFile W.GetErrorString o.input []).diffuse_texture with
    | nil => exact absurd hdt hd
    | cons c cs => rfl
  refine ⟨tw, th, ?_⟩
  unfold main
  simp only [hp, hd', h1, h2, h3, hl, h5, h6, h7, h8, Bool.not_true, Bool.false_eq_true,
    if_false, setup_effects, mesh_size, List.append_assoc, List.cons_append, List.nil_append]

theorem stop_raised_mono (W : World) (a : Nat) (h : stop_raised W a = true) :
    ∀ b, a ≤ b → stop_raised W b = true := by
  intro b hab
  induction b with
  | zero =>
    have : a = 0 := by omega
    subst this
    exact h
  | succ b ih =>
    by_cases hb : a = b + 1
    · subst hb
      exact h
    · simp [stop_raised, ih (by omega)]

/-- The run of `main` when the setup succeeds: with fuel beyond `n` the run
returns `EXIT_SUCCESS`. Its trace starts with the setup's effects and the
effects of the iterations `0 .. k-1` for some `k ≤ n`, before each of which
no signal was raised and in each of which `create_directory` returned. It
ends either with `glfwTerminate`, the loop condition having failed at `n` or
on a raised signal, or with the draw and the `create_directory` call of
iteration `k` and the diagnostic of the exception this call threw. -/
theorem main_run (W : World) (o : Options) (h : setup_succeeds W o) (fuel : Nat)
    (hf : o.n < fuel) :
    ∃ (k : Nat) (tw th : Int), k ≤ o.n ∧
      (∀ j, j < k → stop_raised W j = false ∧ W.create_directory j = none) ∧
      (((k < o.n → stop_raised W k = true) ∧
          main fuel W = some ⟨ExitStatus.EXIT_SUCCESS,
            setup_effects W o tw th
              ++ (List.range k).flatMap (iteration_effects W o (mesh_size W o))
              ++ [Effect.glfwTerminate]⟩) ∨
        (k < o.n ∧ stop_raised W k = false ∧ ∃ what, W.create_directory k = some what ∧
          main fuel W = some ⟨ExitStatus.EXIT_SUCCESS,
            setup_effects W o tw th
              ++ (List.range k).flatMap (iteration_effects W o (mesh_size W o))
              ++ [Effect.glDrawArrays (mesh_size W o), Effect.create_directory o.output,
                  Effect.cout ("Exception: " ++ what)]⟩)) := by
  obtain ⟨tw, th, hmain⟩ := main_of_setup_succeeds W o h fuel
  obtain ⟨k, -, hk, hquiet, hend⟩ :=
    sample_loop_run W o (mesh_size W o) fuel ⟨0, W.window_should_close, setup_effects W o tw th⟩
      rfl (Nat.zero_le _) (by dsimp only; omega)
  refine ⟨k, tw, th, hk, fun j hj => hquiet j (Nat.zero_le j) hj, ?_⟩
  rcases hend with ⟨hstop, hrun⟩ | ⟨hkn, hks, what, hwhat, hrun⟩
  · left
    refine ⟨hstop, ?_⟩
    rw [hmain, hrun]
    simp only [Nat.sub_zero, List.range_eq_range']
  · right
    refine ⟨hkn, hks, what, hwhat, ?_⟩
    rw [hmain, hrun]
    simp only [Nat.sub_zero, List.range_eq_range', List.append_assoc, List.cons_append,
      List.nil_append]

theorem written_files_of_run (W : World) (o : Options) (tw th : Int) (k : Nat)
    (tail : List Effect) (htail : ∀ e ∈ tail, e.is_write = false) :
    written_files (setup_effects W o tw th
        ++ (List.range k).flatMap (iteration_effects W o (mesh_size W o)) ++ tail)
      = (List.range k).flatMap (sample_files W o) := by
  rw [written_files_append, written_files_append, written_files_flatMap_iteration_effects,
    written_files_of_no_write _ (setup_effects_no_write W o tw th),
    written_files_of_no_write _ htail]
  simp

theorem filter_is_write_of_run (W : World) (o : Options) (tw th : Int) (k : Nat)
    (tail : List Effect) (htail : ∀ e ∈ tail, e.is_write = false) :
    (setup_effects W o tw th
        ++ (List.range k).flatMap (iteration_effects W o (mesh_size W o))
        ++ tail).filter Effect.is_write
      = (List.range k).flatMap (encoder_calls W o) := by
  rw [List.filter_append, List.filter_append, filter_is_write_flatMap_iteration_effects,
    List.filter_eq_nil_iff.mpr (fun e he => by simp [setup_effects_no_write W o tw th e he]),
    List.filter_eq_nil_iff.mpr (fun e he => by simp [htail e he])]
  simp

theorem terminate_no_write : ∀ e ∈ [Effect.glfwTerminate], e.is_write = false := by
  intro e he
  rw [List.mem_singleton.mp he]
  rfl

theorem exception_tail_no_write (m : Nat) (out : List Char) (line : String) :
    ∀ e ∈ [Effect.glDrawArrays m, Effect.create_directory out, Effect.cout line],
      e.is_write = false := by
  intro e he
  simp only [List.mem_cons, List.mem_singleton, List.not_mem_nil, or_false] at he
  rcases he with rfl | rfl | rfl <;> rfl

/-- The encoder calls of a run whose setup succeeds: for some `k ≤ n`, the
calls of the samples `0 .. k-1`, before each of which no signal was raised
and in each of which `create_directory` returned; the run stops short of `n`
only on a raised signal or on a throwing `create_directory`. -/
theorem main_run_files (W : World) (o : Options) (h : setup_succeeds W o) (fuel : Nat)
    (hf : o.n < fuel) :
    ∃ (out : Outcome) (k : Nat), main fuel W = some out ∧ k ≤ o.n ∧
      written_files out.trace = (List.range k).flatMap (sample_files W o) ∧
      out.trace.filter Effect.is_write = (List.range k).flatMap (encoder_calls W o) ∧
      (∀ j, j < k → stop_raised W j = false ∧ W.create_directory j = none) ∧
      (k < o.n → stop_raised W k = true ∨ W.create_directory k ≠ none) ∧
      (k < o.n → stop_raised W k = false →
        Effect.glDrawArrays (mesh_size W o) ∈ out.trace) := by
  obtain ⟨k, tw, th, hk, hquiet, hend⟩ := main_run W o h fuel hf
  rcases hend with ⟨hstop, hmain⟩ | ⟨hkn, hks, what, hwhat, hmain⟩
  · refine ⟨_, k, hmain, hk, written_files_of_run W o tw th k _ terminate_no_write,
      filter_is_write_of_run W o tw th k _ terminate_no_write, hquiet,
      fun hkn => Or.inl (hstop hkn), ?_⟩
    intro hkn hno
    rw [hstop hkn] at hno
    cases hno
  · refine ⟨_, k, hmain, hk,
      written_files_of_run W o tw th k _ (exception_tail_no_write _ _ _),
      filter_is_write_of_run W o tw th k _ (exception_tail_no_write _ _ _), hquiet,
      fun _ => Or.inr (by rw [hwhat]; exact Option.some_ne_none _), ?_⟩
    intro _ _
    simp

/-! ### Runs of `main` -/

theorem stop_raised_of_quiet (W : World)
    (hq : W.window_should_close = false ∧ ∀ i, W.key_escape i = false ∧ W.close_event i = false) :
    ∀ j, stop_raised W j = false := by
  intro j
  induction j with
  | zero => exact hq.1
  | succ j ih => simp [stop_raised, ih, (hq.2 j).1, (hq.2 j).2]

theorem length_flatMap_sample_files (W : World) (o : Options) (l : List Nat) :
    (l.flatMap (sample_files W o)).length = 2 * l.length := by
  induction l with
  | nil => rfl
  | cons i l ih =>
    simp only [List.flatMap_cons, List.length_append, ih, List.length_cons, sample_files,
      List.length_nil]
    omega

/-- C3, amended. When the setup succeeds, no close or cancel signal is ever
raised, no `create_directory` call of the run throws and the encoder
succeeds on every file of the run, a run with sample count `n` returns
`EXIT_SUCCESS`; its trace is the setup, then the iterations `0, 1, .., n-1`
in this order, then `glfwTerminate`; the encoder is called on the colour and
UV file of each sample `0 .. n-1` in increasing order of the index, `2 n`
calls in all, and the files left behind are these `2 n` files, no two of
them the same. -/
theorem quiet_run_writes_every_sample (W : World) (o : Options) (fuel : Nat)
    (hs : setup_succeeds W o)
    (hq : W.window_should_close = false ∧ ∀ i, W.key_escape i = false ∧ W.close_event i = false)
    (hdir : ∀ i, i < o.n → W.create_directory i = none)
    (henc : ∀ i, i < o.n → ∀ f ∈ sample_files W o i, W.stbi_write_png f = true)
    (hf : o.n < fuel) :
    ∃ (out : Outcome) (tw th : Int), main fuel W = some out ∧
      out.status = ExitStatus.EXIT_SUCCESS ∧
      out.trace = setup_effects W o tw th
        ++ (List.range o.n).flatMap (iteration_effects W o (mesh_size W o))
        ++ [Effect.glfwTerminate] ∧
      written_files out.trace = (List.range o.n).flatMap (sample_files W o) ∧
      (written_files out.trace).length = 2 * o.n ∧
      files_on_disk W out.trace = (List.range o.n).flatMap (sample_files W o) ∧
      (files_on_disk W out.trace).length = 2 * o.n ∧
      (files_on_disk W out.trace).Nodup := by
  obtain ⟨k, tw, th, hk, hquiet, hend⟩ := main_run W o hs fuel hf
  have hdisk : files_on_disk W
      (setup_effects W o tw th
        ++ (List.range o.n).flatMap (iteration_effects W o (mesh_size W o))
        ++ [Effect.glfwTerminate]) = (List.range o.n).flatMap (sample_files W o) := by
    unfold files_on_disk
    rw [written_files_of_run W o tw th _ _ terminate_no_write]
    apply List.filter_eq_self.mpr
    intro f hfm
    obtain ⟨i, hi, hfi⟩ := List.mem_flatMap.mp hfm
    exact henc i (List.mem_range.mp hi) f hfi
  rcases hend with ⟨hstop, hmain⟩ | ⟨hkn, -, what, hwhat, -⟩
  · have hkn : k = o.n := by
      by_contra hne
      have := hstop (by omega)
      rw [stop_raised_of_quiet W hq k] at this
      cases this
    subst hkn
    refine ⟨_, tw, th, hmain, rfl, rfl,
      written_files_of_run W o tw th _ _ terminate_no_write, ?_, hdisk, ?_, ?_⟩
    · rw [written_files_of_run W o tw th _ _ terminate_no_write, length_flatMap_sample_files,
        List.length_range]
    · rw [hdisk, length_flatMap_sample_files, List.length_range]
    · rw [hdisk]
      exact flatMap_sample_files_nodup W o _ (List.nodup_range _)
  · rw [hdir k hkn] at hwhat
    cases hwhat

/-- C7. When the setup succeeds, the encoder calls of a run are, for each
sample `0 .. k-1` it produces, one call for the colour image and one for
the UV image, both with width `fb_w`, height `fb_h`, 4 channels and row
stride `fb_w * 4`, where `fb_w` and `fb_h` are the framebuffer size queried
before the loop; every encoder call of the run has these dimensions,
whatever the requested `w` and `h`. -/
theorem color_and_uv_images_have_framebuffer_size (W : World) (o : Options) (fuel : Nat)
    (hs : setup_succeeds W o) (hf : o.n < fuel) :
    ∃ (out : Outcome) (k : Nat), main fuel W = some out ∧ k ≤ o.n ∧
      out.trace.filter Effect.is_write = (List.range k).flatMap (encoder_calls W o) ∧
      (∀ filename w h comp stride, Effect.stbi_write_png filename w h comp stride ∈ out.trace →
        w = W.fb_w ∧ h = W.fb_h ∧ comp = 4 ∧ stride = W.fb_w * 4) := by
  obtain ⟨out, k, hmain, hk, -, hfilter, -, -, -⟩ := main_run_files W o hs fuel hf
  refine ⟨out, k, hmain, hk, hfilter, ?_⟩
  intro filename w h comp stride hmem
  have hfil : Effect.stbi_write_png filename w h comp stride ∈
      out.trace.filter Effect.is_write :=
    List.mem_filter.mpr ⟨hmem, rfl⟩
  rw [hfilter] at hfil
  obtain ⟨i, -, hi⟩ := List.mem_flatMap.mp hfil
  simp only [encoder_calls, List.mem_cons, List.mem_singleton, List.not_mem_nil, or_false,
    Effect.stbi_write_png.injEq] at hi
  rcases hi with ⟨-, h1, h2, h3, h4⟩ | ⟨-, h1, h2, h3, h4⟩ <;> exact ⟨h1, h2, h3, h4⟩

/-- C9, amended. When the setup succeeds, for every sample count `n` and
every pattern of close and cancel signals the run returns after `k ≤ n`
complete iterations. Its trace is the setup and the complete iterations
`0 .. k-1`, followed either by `glfwTerminate` or, when the
`create_directory` call of iteration `k` throws, by the draw and the
directory call of iteration `k` and the diagnostic of the exception. The
encoder is called exactly on the `2 k` distinct files of the samples
`0 .. k-1`, and the files left behind are those of them on which it
succeeds. Before each of these iterations no signal was raised; the run
stops short of `n` only when a signal was raised before iteration `k` would
have started or when iteration `k` started and its `create_directory` call
threw. Every iteration before which no signal was raised and up to which no
`create_directory` call throws runs to its end and has both its files
handed to the encoder, whatever is raised while it runs. -/
theorem stop_takes_effect_at_the_loop_head (W : World) (o : Options) (fuel : Nat)
    (hs : setup_succeeds W o) (hf : o.n < fuel) :
    ∃ (out : Outcome) (k : Nat) (tw th : Int), main fuel W = some out ∧ k ≤ o.n ∧
      (out.trace = setup_effects W o tw th
          ++ (List.range k).flatMap (iteration_effects W o (mesh_size W o))
          ++ [Effect.glfwTerminate] ∨
        ∃ what, W.create_directory k = some what ∧
          out.trace = setup_effects W o tw th
            ++ (List.range k).flatMap (iteration_effects W o (mesh_size W o))
            ++ [Effect.glDrawArrays (mesh_size W o), Effect.create_directory o.output,
                Effect.cout ("Exception: " ++ what)]) ∧
      written_files out.trace = (List.range k).flatMap (sample_files W o) ∧
      (written_files out.trace).length = 2 * k ∧
      (written_files out.trace).Nodup ∧
      files_on_disk W out.trace
        = ((List.range k).flatMap (sample_files W o)).filter W.stbi_write_png ∧
      (∀ j, j < k → stop_raised W j = false ∧ W.create_directory j = none) ∧
      (k < o.n → stop_raised W k = true ∨
        (stop_raised W k = false ∧ W.create_directory k ≠ none)) ∧
      (∀ i, i < o.n → stop_raised W i = false → (∀ j, j ≤ i → W.create_directory j = none) →
        i < k ∧ ∀ f ∈ sample_files W o i, f ∈ written_files out.trace) := by
  obtain ⟨k, tw, th, hk, hquiet, hend⟩ := main_run W o hs fuel hf
  have hlater : ∀ i, i < o.n → stop_raised W i = false →
      (∀ j, j ≤ i → W.create_directory j = none) →
      (k < o.n → stop_raised W k = true ∨ W.create_directory k ≠ none) → i < k := by
    intro i hi hno hdir hstop
    by_contra hge
    have hki : k ≤ i := by omega
    rcases hstop (by omega) with h | h
    · have := stop_raised_mono W k h i hki
      rw [hno] at this
      cases this
    · exact h (hdir k hki)
  rcases hend with ⟨hstop, hmain⟩ | ⟨hkn, hks, what, hwhat, hmain⟩
  · have hw := written_files_of_run W o tw th k _ terminate_no_write
    refine ⟨_, k, tw, th, hmain, hk, Or.inl rfl, hw, ?_, ?_, ?_, hquiet,
      fun hkn => Or.inl (hstop hkn), ?_⟩
    · rw [hw, length_flatMap_sample_files, List.length_range]
    · rw [hw]
      exact flatMap_sample_files_nodup W o _ (List.nodup_range _)
    · unfold files_on_disk
      rw [hw]
    · intro i hi hno hdir
      have hik := hlater i hi hno hdir (fun hkn => Or.inl (hstop hkn))
      refine ⟨hik, fun f hfm => ?_⟩
      rw [hw]
      exact List.mem_flatMap.mpr ⟨i, List.mem_range.mpr hik, hfm⟩
  · have hw := written_files_of_run W o tw th k _
      (exception_tail_no_write (mesh_size W o) o.output ("Exception: " ++ what))
    have hne : W.create_directory k ≠ none := by
      rw [hwhat]
      exact Option.some_ne_none _
    refine ⟨_, k, tw, th, hmain, hk, Or.inr ⟨what, hwhat, rfl⟩, hw, ?_, ?_, ?_, hquiet,
      fun _ => Or.inr ⟨hks, hne⟩, ?_⟩
    · rw [hw, length_flatMap_sample_files, List.length_range]
    · rw [hw]
      exact flatMap_sample_files_nodup W o _ (List.nodup_range _)
    · unfold files_on_disk
      rw [hw]
    · intro i hi hno hdir
      have hik := hlater i hi hno hdir (fun _ => Or.inr hne)
      refine ⟨hik, fun f hfm => ?_⟩
      rw [hw]
      exact List.mem_flatMap.mpr ⟨i, List.mem_range.mpr hik, hfm⟩

theorem load_mesh_diffuse_unchanged (scene : Option aiScene)
    (h : import_failed scene ∨ zero_meshes scene ∨ no_diffuse_reference scene)
    (error_string : String) (filename diffuse : List Char) :
    (load_mesh scene error_string filename diffuse).diffuse_texture = diffuse := by
  cases scene with
  | none => rfl
  | some s =>
    simp only [load_mesh]
    split
    · rfl
    · rfl
    · rename_i transform hinc hroot
      split
      · rfl
      · rename_i mesh rest hm
        split
        · rfl
        · rename_i path more hd
          exfalso
          simp [import_failed, zero_meshes, no_diffuse_reference, hinc, hroot, hm, hd] at h

theorem load_mesh_vertices_empty (scene : Option aiScene)
    (h : import_failed scene ∨ zero_meshes scene)
    (error_string : String) (filename diffuse : List Char) :
    (load_mesh scene error_string filename diffuse).vertices = [] := by
  cases scene with
  | none => rfl
  | some s =>
    simp only [load_mesh]
    split
    · rfl
    · rfl
    · rename_i transform hinc hroot
      split
      · rfl
      · rename_i mesh rest hm
        exfalso
        simp [import_failed, zero_meshes, hinc, hroot, hm] at h

/-- C4. For an import that fails (no scene, incomplete scene, no root
node), yields zero meshes or resolves no diffuse texture, `load_mesh` leaves
the diffuse-texture output as it was, hence empty in `main`, and in the
failure and zero-mesh cases returns no vertices; `main` then returns
`EXIT_FAILURE` with a trace that holds diagnostic lines only, the last being
"No diffuse texture": no `glfwInit`, no window, no texture, no framebuffer,
no directory and no file. -/
theorem unusable_import_fails_before_any_gpu_work (W : World) (o : Options) (fuel : Nat)
    (hp : W.parse = ParseResult.parsed o)
    (h : import_failed W.ReadFile ∨ zero_meshes W.ReadFile ∨ no_diffuse_reference W.ReadFile) :
    (∀ (error_string : String) (filename diffuse : List Char),
      (load_mesh W.ReadFile error_string filename diffuse).diffuse_texture = diffuse) ∧
    (import_failed W.ReadFile ∨ zero_meshes W.ReadFile →
      ∀ (error_string : String) (filename diffuse : List Char),
        (load_mesh W.ReadFile error_string filename diffuse).vertices = []) ∧
    ∃ out : Outcome, main fuel W = some out ∧
      out.status = ExitStatus.EXIT_FAILURE ∧
      (∀ e ∈ out.trace, e.is_cout = true) ∧
      out.trace.getLast? = some (Effect.cout "No diffuse texture") ∧
      written_files out.trace = [] := by
  refine ⟨load_mesh_diffuse_unchanged _ h, fun h2 => load_mesh_vertices_empty _ h2, ?_⟩
  have hd := load_mesh_diffuse_unchanged W.ReadFile h W.GetErrorString o.input []
  refine ⟨⟨ExitStatus.EXIT_FAILURE,
    (load_mesh W.ReadFile W.GetErrorString o.input []).out.map Effect.cout
      ++ [Effect.cout "No diffuse texture"]⟩, ?_, rfl, ?_, ?_, ?_⟩
  · unfold main
    simp only [hp, hd, List.isEmpty_nil, if_true]
  · intro e he
    rcases List.mem_append.mp he with he | he
    · obtain ⟨x, -, rfl⟩ := List.mem_map.mp he
      rfl
    · rw [List.mem_singleton.mp he]
      rfl
  · simp
  · apply written_files_of_no_write
    intro e he
    rcases List.mem_append.mp he with he | he
    · obtain ⟨x, -, rfl⟩ := List.mem_map.mp he
      rfl
    · rw [List.mem_singleton.mp he]
      rfl

/-- C5, the run that departs from the claim: on `s_gen -n abc` the option
parser throws, `main` prints the diagnostic of its handler and returns
`EXIT_SUCCESS`, not `EXIT_FAILURE`. -/
theorem unparsable_flags_return_success :
    main 129 unparsable_world
      = some ⟨ExitStatus.EXIT_SUCCESS,
          [Effect.cout "Error parsing options: Argument 'abc' failed to parse"]⟩ := by
  rfl

/-- The fatal conditions of the setup other than unparsable flags: when the
options parse and some step of the setup fails, `main` returns
`EXIT_FAILURE`, and the last thing it does before returning, up to a final
`glfwTerminate`, is to print a diagnostic line. -/
theorem setup_failure_returns_failure (W : World) (o : Options) (fuel : Nat)
    (hp : W.parse = ParseResult.parsed o) (hn : ¬ setup_succeeds W o) :
    ∃ (out : Outcome) (before : List Effect) (line : String), main fuel W = some out ∧
      out.status = ExitStatus.EXIT_FAILURE ∧
      (out.trace = before ++ [Effect.cout line] ∨
        out.trace = before ++ [Effect.cout line, Effect.glfwTerminate]) := by
  unfold main
  simp only [hp]
  by_cases hd : (load_mesh W.ReadFile W.GetErrorString o.input []).diffuse_texture.isEmpty = true
  · rw [if_pos hd]
    exact ⟨_, _, _, rfl, rfl, Or.inl rfl⟩
  rw [if_neg hd]
  have hd' : (load_mesh W.ReadFile W.GetErrorString o.input []).diffuse_texture ≠ [] := by
    intro h0
    rw [h0] at hd
    exact hd rfl
  cases h1 : W.glfwInit
  · exact ⟨_, _, _, rfl, rfl, Or.inl rfl⟩
  cases h2 : W.glfwCreateWindow
  · exact ⟨_, _, _, rfl, rfl, Or.inl rfl⟩
  cases h3 : W.glewInit
  · exact ⟨_, _, _, rfl, rfl, Or.inr rfl⟩
  cases h4 : W.stbi_load with
  | none => exact ⟨_, _, _, rfl, rfl, Or.inr rfl⟩
  | some texsize =>
    obtain ⟨tw, th⟩ := texsize
    cases h5 : W.vert_compiled
    · exact ⟨_, _, _, rfl, rfl, Or.inr rfl⟩
    cases h6 : W.frag_compiled
    · exact ⟨_, _, _, rfl, rfl, Or.inr rfl⟩
    cases h7 : W.prog_linked
    · exact ⟨_, _, _, rfl, rfl, Or.inr rfl⟩
    cases h8 : W.framebuffer_complete
    · exact ⟨_, _, _, rfl, rfl, Or.inr rfl⟩
    exact absurd ⟨hp, hd', h1, h2, h3, by simp [h4], h5, h6, h7, h8⟩ hn

/-! ### Concrete runs -/

theorem printf_f_of_bounds (q : ℚ) (k : Nat) (h0 : 0 ≤ q) (h1 : (k : ℚ) - 1 / 2 < q * 1000000)
    (h2 : q * 1000000 < k + 1 / 2) : printf_f (float.finite q) = fixed6 false k := by
  have hn : ¬ q < 0 := not_lt.mpr h0
  simp only [printf_f, hn, decide_False, if_false]
  rw [round_half_even_of_bounds _ k h1 h2]

theorem good_world_setup_succeeds (o : Options) (c : Bool) (ke ce : Nat → Bool)
    (cd : Nat → Option String) (enc : List Char → Bool) :
    setup_succeeds (good_world (ParseResult.parsed o) (some triangle_scene) c ke ce cd enc) o := by
  refine ⟨rfl, ?_, rfl, rfl, rfl, ?_, rfl, rfl, rfl, rfl⟩
  · simp [good_world, load_mesh, triangle_scene, triangle]
  · simp [good_world]

theorem good_world_mesh_size (o : Options) (c : Bool) (ke ce : Nat → Bool)
    (cd : Nat → Option String) (enc : List Char → Bool) :
    mesh_size (good_world (ParseResult.parsed o) (some triangle_scene) c ke ce cd enc) o = 3 := by
  simp [mesh_size, good_world, load_mesh, triangle_scene, triangle]

theorem default_fov_bounds (n : Nat) (out : List Char) :
    min_fov { default_options n with output := out } = float.finite 30 ∧
    max_fov { default_options n with output := out } = float.finite 75 := by
  constructor
  · simp only [min_fov, default_options, auto_swap, float.lt]
    norm_num
  · simp only [max_fov, default_options, auto_swap, float.lt]
    norm_num

theorem default_radius_bounds (n : Nat) (out : List Char) :
    min_radius { default_options n with output := out } = float.finite (5 / 4) ∧
    max_radius { default_options n with output := out } = float.finite 2 := by
  constructor
  · simp only [min_radius, default_options, auto_swap, float.lt]
    norm_num
  · simp only [max_radius, default_options, auto_swap, float.lt]
    norm_num

theorem good_world_fov (p : ParseResult) (s : Option aiScene) (c : Bool) (ke ce : Nat → Bool)
    (cd : Nat → Option String) (enc : List Char → Bool) (n i : Nat) (out : List Char) :
    printf_f (fov (good_world p s c ke ce cd enc) { default_options n with output := out } i)
      = fixed6 false 916298 := by
  unfold fov
  rw [(default_fov_bounds n out).1, (default_fov_bounds n out).2, glm_radians_30,
    glm_radians_75]
  have h : (good_world p s c ke ce cd enc).fdis i = 1 / 2 := rfl
  rw [h, fov_30_75_half]
  exact printf_f_of_bounds _ 916298 (by norm_num) (by norm_num) (by norm_num)

theorem good_world_radius (p : ParseResult) (s : Option aiScene) (c : Bool) (ke ce : Nat → Bool)
    (cd : Nat → Option String) (enc : List Char → Bool) (n i : Nat) (out : List Char) :
    radius (good_world p s c ke ce cd enc) { default_options n with output := out } i
      = float.finite (5 / 4 + ((i % 8 : Nat) : ℚ) / 8 * (3 / 4)) := by
  unfold radius
  rw [(default_radius_bounds n out).1, (default_radius_bounds n out).2]
  exact radius_default_eighths (i % 8) (Nat.mod_lt _ (by norm_num))

theorem good_world_base (p : ParseResult) (s : Option aiScene) (c : Bool) (ke ce : Nat → Bool)
    (cd : Nat → Option String) (enc : List Char → Bool) (n i k : Nat) (out : List Char)
    (h1 : (k : ℚ) - 1 / 2 < (5 / 4 + ((i % 8 : Nat) : ℚ) / 8 * (3 / 4)) * 1000000)
    (h2 : (5 / 4 + ((i % 8 : Nat) : ℚ) / 8 * (3 / 4)) * 1000000 < k + 1 / 2) :
    base (good_world p s c ke ce cd enc) { default_options n with output := out } i
      = std_replace '.' '_' (['S'] ++ to_string_unsigned i ++ (['F'] ++ fixed6 false 916298)
          ++ (['R'] ++ fixed6 false k)) := by
  have hf := good_world_fov p s c ke ce cd enc n i out
  have hr : printf_f (radius (good_world p s c ke ce cd enc)
      { default_options n with output := out } i) = fixed6 false k := by
    rw [good_world_radius]
    exact printf_f_of_bounds _ k (by positivity) h1 h2
  have hfmt : (good_world p s c ke ce cd enc).to_string_float = printf_f := rfl
  simp only [base, basename, base_label, hfmt, hf, hr, List.nil_append]

theorem good_world_base_0 (p : ParseResult) (s : Option aiScene) (c : Bool)
    (ke ce : Nat → Bool) (cd : Nat → Option String) (enc : List Char → Bool) (n : Nat)
    (out : List Char) :
    base (good_world p s c ke ce cd enc) { default_options n with output := out } 0
      = "S0F0_916298R1_250000".toList := by
  rw [good_world_base p s c ke ce cd enc n 0 1250000 out (by norm_num) (by norm_num)]
  decide

theorem good_world_base_1 (p : ParseResult) (s : Option aiScene) (c : Bool)
    (ke ce : Nat → Bool) (cd : Nat → Option String) (enc : List Char → Bool) (n : Nat)
    (out : List Char) :
    base (good_world p s c ke ce cd enc) { default_options n with output := out } 1
      = "S1F0_916298R1_343750".toList := by
  rw [good_world_base p s c ke ce cd enc n 1 1343750 out (by norm_num) (by norm_num)]
  decide

theorem good_world_base_2 (p : ParseResult) (s : Option aiScene) (c : Bool)
    (ke ce : Nat → Bool) (cd : Nat → Option String) (enc : List Char → Bool) (n : Nat)
    (out : List Char) :
    base (good_world p s c ke ce cd enc) { default_options n with output := out } 2
      = "S2F0_916298R1_437500".toList := by
  rw [good_world_base p s c ke ce cd enc n 2 1437500 out (by norm_num) (by norm_num)]
  decide

theorem good_world_base_3 (p : ParseResult) (s : Option aiScene) (c : Bool)
    (ke ce : Nat → Bool) (cd : Nat → Option String) (enc : List Char → Bool) (n : Nat)
    (out : List Char) :
    base (good_world p s c ke ce cd enc) { default_options n with output := out } 3
      = "S3F0_916298R1_531250".toList := by
  rw [good_world_base p s c ke ce cd enc n 3 1531250 out (by norm_num) (by norm_num)]
  decide

theorem good_world_base_4 (p : ParseResult) (s : Option aiScene) (c : Bool)
    (ke ce : Nat → Bool) (cd : Nat → Option String) (enc : List Char → Bool) (n : Nat)
    (out : List Char) :
    base (good_world p s c ke ce cd enc) { default_options n with output := out } 4
      = "S4F0_916298R1_625000".toList := by
  rw [good_world_base p s c ke ce cd enc n 4 1625000 out (by norm_num) (by norm_num)]
  decide

/-- The ten files of `s_gen -n 5` on the triangle scene, in the order in
which the run hands them to the encoder. -/
theorem good_world_files (c : Bool) (ke ce : Nat → Bool) (cd : Nat → Option String)
    (enc : List Char → Bool) :
    (List.range 5).flatMap
        (sample_files
          (good_world (ParseResult.parsed (default_options 5)) (some triangle_scene) c ke ce
            cd enc) (default_options 5))
      = [ "out/S0F0_916298R1_250000_color.png".toList, "out/S0F0_916298R1_250000_uv.png".toList,
          "out/S1F0_916298R1_343750_color.png".toList, "out/S1F0_916298R1_343750_uv.png".toList,
          "out/S2F0_916298R1_437500_color.png".toList, "out/S2F0_916298R1_437500_uv.png".toList,
          "out/S3F0_916298R1_531250_color.png".toList, "out/S3F0_916298R1_531250_uv.png".toList,
          "out/S4F0_916298R1_625000_color.png".toList,
          "out/S4F0_916298R1_625000_uv.png".toList ] := by
  have hrange : List.range 5 = [0, 1, 2, 3, 4] := rfl
  have ho : default_options 5 = { default_options 5 with output := "out".toList } := rfl
  have h0 := good_world_base_0 (ParseResult.parsed (default_options 5)) (some triangle_scene)
    c ke ce cd enc 5 "out".toList
  have h1 := good_world_base_1 (ParseResult.parsed (default_options 5)) (some triangle_scene)
    c ke ce cd enc 5 "out".toList
  have h2 := good_world_base_2 (ParseResult.parsed (default_options 5)) (some triangle_scene)
    c ke ce cd enc 5 "out".toList
  have h3 := good_world_base_3 (ParseResult.parsed (default_options 5)) (some triangle_scene)
    c ke ce cd enc 5 "out".toList
  have h4 := good_world_base_4 (ParseResult.parsed (default_options 5)) (some triangle_scene)
    c ke ce cd enc 5 "out".toList
  rw [← ho] at h0 h1 h2 h3 h4
  simp only [hrange, List.flatMap_cons, List.flatMap_nil, sample_files, h0, h1, h2, h3, h4]
  decide

/-- The run of `s_gen -n 5 -o missing/out` where the directory `missing`
does not exist: the setup succeeds, iteration 0 draws its sample, the
`create_directory` call of line 404 throws, the handler of line 441 prints
the diagnostic and `main` returns through line 446. -/
theorem missing_parent_run :
    main 6 (missing_parent_world 5)
      = some ⟨ExitStatus.EXIT_SUCCESS,
          [ Effect.cout "foo.fbx has diffuse texture tex.png",
            Effect.glfwInit, Effect.glfwCreateWindow 512 512, Effect.glewInit,
            Effect.stbi_load "tex.png".toList,
            Effect.glCreateTextures, Effect.glTexImage2D 256 256,
            Effect.glCreateVertexArrays, Effect.glCreateBuffers,
            Effect.glCreateShader, Effect.glCreateShader, Effect.glCreateProgram,
            Effect.glCreateTextures, Effect.glTexImage2D 1024 1024,
            Effect.glCreateTextures, Effect.glTexImage2D 1024 1024,
            Effect.glCreateTextures, Effect.glTexImage2D 1024 1024,
            Effect.glCreateFramebuffers,
            Effect.glDrawArrays 3, Effect.create_directory "missing/out".toList,
            Effect.cout "Exception: filesystem error: cannot create directory" ]⟩ := by
  have hrun : main 6 (missing_parent_world 5)
      = some ⟨ExitStatus.EXIT_SUCCESS,
          setup_effects (missing_parent_world 5) (missing_parent_options 5) 256 256
            ++ [Effect.glDrawArrays 3, Effect.create_directory "missing/out".toList,
                Effect.cout "Exception: filesystem error: cannot create directory"]⟩ := rfl
  have hsetup : setup_effects (missing_parent_world 5) (missing_parent_options 5) 256 256
      = [ Effect.cout "foo.fbx has diffuse texture tex.png",
            Effect.glfwInit, Effect.glfwCreateWindow 512 512, Effect.glewInit,
          Effect.stbi_load "tex.png".toList,
          Effect.glCreateTextures, Effect.glTexImage2D 256 256,
          Effect.glCreateVertexArrays, Effect.glCreateBuffers,
          Effect.glCreateShader, Effect.glCreateShader, Effect.glCreateProgram,
          Effect.glCreateTextures, Effect.glTexImage2D 1024 1024,
          Effect.glCreateTextures, Effect.glTexImage2D 1024 1024,
          Effect.glCreateTextures, Effect.glTexImage2D 1024 1024,
          Effect.glCreateFramebuffers ] := by
    simp [setup_effects, missing_parent_world, good_world, load_mesh, triangle_scene, triangle,
      missing_parent_options, default_options]
  rw [hrun, hsetup]
  rfl

/-- The run of a quiet world in which no `create_directory` call throws:
the setup, the `n` iterations, `glfwTerminate`. -/
theorem run_of_quiet_world (W : World) (o : Options) (fuel : Nat) (hs : setup_succeeds W o)
    (hq : W.window_should_close = false ∧ ∀ i, W.key_escape i = false ∧ W.close_event i = false)
    (hdir : ∀ i, i < o.n → W.create_directory i = none) (hf : o.n < fuel) :
    ∃ tw th : Int, main fuel W = some ⟨ExitStatus.EXIT_SUCCESS,
      setup_effects W o tw th
        ++ (List.range o.n).flatMap (iteration_effects W o (mesh_size W o))
        ++ [Effect.glfwTerminate]⟩ := by
  obtain ⟨k, tw, th, hk, hquiet, hend⟩ := main_run W o hs fuel hf
  rcases hend with ⟨hstop, hmain⟩ | ⟨hkn, -, what, hwhat, -⟩
  · have hkn : k = o.n := by
      by_contra hne
      have := hstop (by omega)
      rw [stop_raised_of_quiet W hq k] at this
      cases this
    subst hkn
    exact ⟨tw, th, hmain⟩
  · rw [hdir k hkn] at hwhat
    cases hwhat

/-- The claim C3 fails without a working file system. On
`s_gen -n 5 -o missing/out` with `missing` absent, the setup succeeds and no
signal is raised, yet the first `create_directory` call throws and the run
ends without a single encoder call: zero files, not ten. On `s_gen -n 5`
with a directory `out` that cannot be written to, the loop runs its five
iterations and calls the encoder ten times, every call fails, its result is
ignored, and the run leaves no file behind. -/
theorem quiet_run_can_leave_no_file :
    ((setup_succeeds (missing_parent_world 5) (missing_parent_options 5) ∧
        (missing_parent_options 5).n = 5 ∧
        (missing_parent_world 5).window_should_close = false ∧
        (∀ i, (missing_parent_world 5).key_escape i = false ∧
          (missing_parent_world 5).close_event i = false)) ∧
      ∃ out : Outcome, main 6 (missing_parent_world 5) = some out ∧
        written_files out.trace = [] ∧
        files_on_disk (missing_parent_world 5) out.trace = [] ∧
        out.trace.getLast?
          = some (Effect.cout "Exception: filesystem error: cannot create directory")) ∧
    ((setup_succeeds (read_only_world 5) (default_options 5) ∧
        (read_only_world 5).window_should_close = false ∧
        (∀ i, (read_only_world 5).key_escape i = false ∧
          (read_only_world 5).close_event i = false) ∧
        (∀ i, (read_only_world 5).create_directory i = none)) ∧
      ∃ out : Outcome, main 6 (read_only_world 5) = some out ∧
        (written_files out.trace).length = 10 ∧
        files_on_disk (read_only_world 5) out.trace = []) := by
  refine ⟨⟨⟨good_world_setup_succeeds _ _ _ _ _ _, rfl, rfl, fun i => ⟨rfl, rfl⟩⟩,
    _, missing_parent_run, rfl, rfl, rfl⟩,
    ⟨good_world_setup_succeeds _ _ _ _ _ _, rfl, fun i => ⟨rfl, rfl⟩, fun i => rfl⟩, ?_⟩
  obtain ⟨tw, th, hmain⟩ := run_of_quiet_world (read_only_world 5) (default_options 5) 6
    (good_world_setup_succeeds _ _ _ _ _ _) ⟨rfl, fun i => ⟨rfl, rfl⟩⟩ (fun i _ => rfl)
    (by decide)
  refine ⟨_, hmain, ?_, ?_⟩
  · rw [written_files_of_run _ _ tw th _ _ terminate_no_write, length_flatMap_sample_files]
    rfl
  · unfold files_on_disk
    exact List.filter_eq_nil_iff.mpr (fun f _ => by simp [read_only_world, good_world])

/-- The hypotheses of `quiet_run_writes_every_sample` hold for `s_gen -n 5`
and for `s_gen -n 0` on the triangle scene with no signal raised and a
working file system: the first run succeeds and writes ten files, the pairs
of `S0` .. `S4` in this order; the second succeeds and writes none. -/
theorem quiet_run_writes_every_sample_witness :
    (setup_succeeds (quiet_world 5) (default_options 5) ∧
      (quiet_world 5).window_should_close = false ∧
      (∀ i, (quiet_world 5).key_escape i = false ∧ (quiet_world 5).close_event i = false) ∧
      (∀ i, (quiet_world 5).create_directory i = none) ∧
      (∀ f, (quiet_world 5).stbi_write_png f = true)) ∧
    (∃ out : Outcome, main 6 (quiet_world 5) = some out ∧
      out.status = ExitStatus.EXIT_SUCCESS ∧
      written_files out.trace =
        [ "out/S0F0_916298R1_250000_color.png".toList, "out/S0F0_916298R1_250000_uv.png".toList,
          "out/S1F0_916298R1_343750_color.png".toList, "out/S1F0_916298R1_343750_uv.png".toList,
          "out/S2F0_916298R1_437500_color.png".toList, "out/S2F0_916298R1_437500_uv.png".toList,
          "out/S3F0_916298R1_531250_color.png".toList, "out/S3F0_916298R1_531250_uv.png".toList,
          "out/S4F0_916298R1_625000_color.png".toList, "out/S4F0_916298R1_625000_uv.png".toList ] ∧
      files_on_disk (quiet_world 5) out.trace = written_files out.trace ∧
      (files_on_disk (quiet_world 5) out.trace).length = 10) ∧
    (∃ out : Outcome, main 1 (quiet_world 0) = some out ∧
      out.status = ExitStatus.EXIT_SUCCESS ∧ written_files out.trace = [] ∧
      files_on_disk (quiet_world 0) out.trace = []) := by
  refine ⟨⟨good_world_setup_succeeds _ _ _ _ _ _, rfl, fun i => ⟨rfl, rfl⟩, fun i => rfl,
    fun f => rfl⟩, ?_, ?_⟩
  · obtain ⟨out, tw, th, hmain, hstatus, -, hfiles, -, hdisk, hlen, -⟩ :=
      quiet_run_writes_every_sample (quiet_world 5) (default_options 5) 6
        (good_world_setup_succeeds _ _ _ _ _ _) ⟨rfl, fun i => ⟨rfl, rfl⟩⟩ (fun i _ => rfl)
        (fun i _ f _ => rfl) (by decide)
    refine ⟨out, hmain, hstatus, ?_, ?_, hlen⟩
    · rw [hfiles]
      exact good_world_files _ _ _ _ _
    · rw [hdisk, hfiles]
  · obtain ⟨out, tw, th, hmain, hstatus, -, hfiles, -, hdisk, -, -⟩ :=
      quiet_run_writes_every_sample (quiet_world 0) (default_options 0) 1
        (good_world_setup_succeeds _ _ _ _ _ _) ⟨rfl, fun i => ⟨rfl, rfl⟩⟩ (fun i _ => rfl)
        (fun i _ f _ => rfl) (by decide)
    exact ⟨out, hmain, hstatus, hfiles, hdisk⟩

/-- The hypotheses of `color_and_uv_images_have_framebuffer_size` hold for
`s_gen -n 5` on a display that gives the 512 x 512 window a 1024 x 1024
framebuffer: every encoder call of the run has width 1024, height 1024,
4 channels and stride 4096. -/
theorem color_and_uv_images_have_framebuffer_size_witness :
    (setup_succeeds (quiet_world 5) (default_options 5) ∧
      (default_options 5).w = 512 ∧ (default_options 5).h = 512) ∧
    ∃ (out : Outcome) (k : Nat), main 6 (quiet_world 5) = some out ∧ k ≤ 5 ∧
      out.trace.filter Effect.is_write
        = (List.range k).flatMap (encoder_calls (quiet_world 5) (default_options 5)) ∧
      (∀ filename w h comp stride, Effect.stbi_write_png filename w h comp stride ∈ out.trace →
        w = 1024 ∧ h = 1024 ∧ comp = 4 ∧ stride = 4096) :=
  ⟨⟨good_world_setup_succeeds _ _ _ _ _ _, rfl, rfl⟩,
    color_and_uv_images_have_framebuffer_size (quiet_world 5) (default_options 5) 6
      (good_world_setup_succeeds _ _ _ _ _ _) (by decide)⟩

/-- The claim C9 fails for an iteration whose `create_directory` call
throws. On `s_gen -n 5 -o missing/out` with `missing` absent no signal is
raised before iteration 0, the loop head lets it start and it draws its
sample, yet neither of its two files is handed to the encoder. -/
theorem started_iteration_can_write_no_file :
    (setup_succeeds (missing_parent_world 5) (missing_parent_options 5) ∧
      0 < (missing_parent_options 5).n ∧
      stop_raised (missing_parent_world 5) 0 = false) ∧
    ∃ out : Outcome, main 6 (missing_parent_world 5) = some out ∧
      Effect.glDrawArrays 3 ∈ out.trace ∧
      Effect.create_directory "missing/out".toList ∈ out.trace ∧
      (∀ f ∈ sample_files (missing_parent_world 5) (missing_parent_options 5) 0,
        f ∉ written_files out.trace) ∧
      written_files out.trace = [] := by
  refine ⟨⟨good_world_setup_succeeds _ _ _ _ _ _, by decide, rfl⟩, _, missing_parent_run,
    ?_, ?_, ?_, rfl⟩
  · simp
  · simp
  · intro f _ hmem
    have : written_files
        (Outcome.mk ExitStatus.EXIT_SUCCESS
          [ Effect.cout "foo.fbx has diffuse texture tex.png",
            Effect.glfwInit, Effect.glfwCreateWindow 512 512, Effect.glewInit,
            Effect.stbi_load "tex.png".toList,
            Effect.glCreateTextures, Effect.glTexImage2D 256 256,
            Effect.glCreateVertexArrays, Effect.glCreateBuffers,
            Effect.glCreateShader, Effect.glCreateShader, Effect.glCreateProgram,
            Effect.glCreateTextures, Effect.glTexImage2D 1024 1024,
            Effect.glCreateTextures, Effect.glTexImage2D 1024 1024,
            Effect.glCreateTextures, Effect.glTexImage2D 1024 1024,
            Effect.glCreateFramebuffers,
            Effect.glDrawArrays 3, Effect.create_directory "missing/out".toList,
            Effect.cout "Exception: filesystem error: cannot create directory" ]).trace
        = [] := rfl
    rw [this] at hmem
    cases hmem

/-- The hypotheses of `stop_takes_effect_at_the_loop_head` hold for
`s_gen -n 5` with Escape held down while iteration 2 runs: the run ends
after three iterations with `glfwTerminate` and has written the six files of
`S0`, `S1` and `S2`, the pair of sample 2 included. -/
theorem stop_takes_effect_at_the_loop_head_witness :
    setup_succeeds (escape_world 5) (default_options 5) ∧
    ∃ out : Outcome, main 6 (escape_world 5) = some out ∧
      out.trace.getLast? = some Effect.glfwTerminate ∧
      written_files out.trace =
        [ "out/S0F0_916298R1_250000_color.png".toList, "out/S0F0_916298R1_250000_uv.png".toList,
          "out/S1F0_916298R1_343750_color.png".toList, "out/S1F0_916298R1_343750_uv.png".toList,
          "out/S2F0_916298R1_437500_color.png".toList,
          "out/S2F0_916298R1_437500_uv.png".toList ] ∧
      files_on_disk (escape_world 5) out.trace = written_files out.trace := by
  refine ⟨good_world_setup_succeeds _ _ _ _ _ _, ?_⟩
  obtain ⟨out, k, tw, th, hmain, hk, htrace, hfiles, -, -, hdisk, hquiet, hstop, -⟩ :=
    stop_takes_effect_at_the_loop_head (escape_world 5) (default_options 5) 6
      (good_world_setup_succeeds _ _ _ _ _ _) (by decide)
  have hdir : ∀ j, (escape_world 5).create_directory j = none := fun j => rfl
  have h3 : stop_raised (escape_world 5) 3 = true := by decide
  have hk3 : k = 3 := by
    rcases Nat.lt_trichotomy k 3 with hlt | heq | hgt
    · have hk' : k = 0 ∨ k = 1 ∨ k = 2 := by omega
      rcases hstop (Nat.lt_of_lt_of_le hlt (by decide)) with hs | ⟨-, hs⟩
      · rcases hk' with rfl | rfl | rfl <;> exact absurd hs (by decide)
      · exact absurd (hdir k) hs
    · exact heq
    · have := (hquiet 3 hgt).1
      rw [h3] at this
      cases this
  subst hk3
  refine ⟨out, hmain, ?_, ?_, ?_⟩
  · rcases htrace with h | ⟨what, hwhat, -⟩
    · rw [h]
      simp
    · rw [hdir 3] at hwhat
      cases hwhat
  · rw [hfiles]
    have hrange : List.range 3 = [0, 1, 2] := rfl
    have ho : default_options 5 = { default_options 5 with output := "out".toList } := rfl
    have h0 := good_world_base_0 (ParseResult.parsed (default_options 5)) (some triangle_scene)
      false (fun i => decide (i = 2)) (fun _ => false) (fun _ => none) (fun _ => true) 5
      "out".toList
    have h1 := good_world_base_1 (ParseResult.parsed (default_options 5)) (some triangle_scene)
      false (fun i => decide (i = 2)) (fun _ => false) (fun _ => none) (fun _ => true) 5
      "out".toList
    have h2 := good_world_base_2 (ParseResult.parsed (default_options 5)) (some triangle_scene)
      false (fun i => decide (i = 2)) (fun _ => false) (fun _ => none) (fun _ => true) 5
      "out".toList
    rw [← ho] at h0 h1 h2
    simp only [hrange, List.flatMap_cons, List.flatMap_nil, sample_files, escape_world, h0, h1,
      h2]
    decide
  · rw [hdisk, hfiles]
    exact List.filter_eq_self.mpr (fun f _ => rfl)

/-- The hypotheses of `unusable_import_fails_before_any_gpu_work` hold for
`s_gen -n 5` on a scene whose mesh has three vertices and a material
without diffuse texture: the run returns `EXIT_FAILURE` having printed one
line and done nothing else. -/
theorem unusable_import_fails_before_any_gpu_work_witness :
    ((untextured_world 5).parse = ParseResult.parsed (default_options 5) ∧
      no_diffuse_reference (untextured_world 5).ReadFile) ∧
    main 6 (untextured_world 5)
      = some ⟨ExitStatus.EXIT_FAILURE, [Effect.cout "No diffuse texture"]⟩ ∧
    ((∀ (error_string : String) (filename diffuse : List Char),
      (load_mesh (untextured_world 5).ReadFile error_string filename diffuse).diffuse_texture
        = diffuse) ∧
    (import_failed (untextured_world 5).ReadFile ∨ zero_meshes (untextured_world 5).ReadFile →
      ∀ (error_string : String) (filename diffuse : List Char),
        (load_mesh (untextured_world 5).ReadFile error_string filename diffuse).vertices = []) ∧
    ∃ out : Outcome, main 6 (untextured_world 5) = some out ∧
      out.status = ExitStatus.EXIT_FAILURE ∧
      (∀ e ∈ out.trace, e.is_cout = true) ∧
      out.trace.getLast? = some (Effect.cout "No diffuse texture") ∧
      written_files out.trace = []) :=
  ⟨⟨rfl, rfl⟩, rfl,
    unusable_import_fails_before_any_gpu_work (untextured_world 5) (default_options 5) 6 rfl
      (Or.inr (Or.inr rfl))⟩

end SGen
